import Mathlib

/-!
Verification of the candidate-job match evaluation engine
(`agents/match-evaluation/main.py`).

The engine is embedded shallowly: Python strings become lists of
characters (`Str`), Python floats become exact rationals, Python ints
become `Int`, and the mutable evidence/reason/missing-data lists that the
dimension scorers append to become values returned by each scorer and
concatenated in call order.  Fallible code (schema validation, missing
dictionary keys) is modelled with `Except`/`Option`, and the
`try/except` wrapper of `calculate_match_score` becomes a sum type
`EngineResult` with one constructor per outcome.
-/

/-- Python strings, modelled as lists of characters. -/
abbrev Str := List Char

/-- The whitespace characters recognised by Python `str.split()` and
`str.strip()` (for the character set that can occur in this engine). -/
def isWS (c : Char) : Bool :=
  c = ' ' || c = '\t' || c = '\n' || c = '\r' || c = '\x0b' || c = '\x0c'

/-- ASCII lower-casing of a single character, as Python `str.lower` acts on
the ASCII range used by the engine. -/
def lowerChar : Char → Char
  | 'A' => 'a' | 'B' => 'b' | 'C' => 'c' | 'D' => 'd' | 'E' => 'e' | 'F' => 'f'
  | 'G' => 'g' | 'H' => 'h' | 'I' => 'i' | 'J' => 'j' | 'K' => 'k' | 'L' => 'l'
  | 'M' => 'm' | 'N' => 'n' | 'O' => 'o' | 'P' => 'p' | 'Q' => 'q' | 'R' => 'r'
  | 'S' => 's' | 'T' => 't' | 'U' => 'u' | 'V' => 'v' | 'W' => 'w' | 'X' => 'x'
  | 'Y' => 'y' | 'Z' => 'z'
  | c => c

/-- Python `str.lower()`. -/
def pyLower (s : Str) : Str := s.map lowerChar

/-- Python `str.strip()`: drop leading and trailing whitespace. -/
def pyStrip (s : Str) : Str :=
  ((s.dropWhile isWS).reverse.dropWhile isWS).reverse

/-- Python `str.split()` with no separator: split on runs of whitespace and
discard empty pieces. -/
def splitWS : Str → List Str
  | [] => []
  | [c] => if isWS c then [] else [[c]]
  | c :: d :: cs =>
    if isWS c then splitWS (d :: cs)
    else if isWS d then [c] :: splitWS cs
    else
      match splitWS (d :: cs) with
      | [] => [[c]]
      | w :: ws => (c :: w) :: ws

/-- Python `sep.join(xs)`. -/
def joinSep (sep : Str) : List Str → Str
  | [] => []
  | [w] => w
  | w :: ws => w ++ sep ++ joinSep sep ws

/-- Decimal digit characters. -/
def digitChar (k : Nat) : Char :=
  if k = 0 then '0' else if k = 1 then '1' else if k = 2 then '2'
  else if k = 3 then '3' else if k = 4 then '4' else if k = 5 then '5'
  else if k = 6 then '6' else if k = 7 then '7' else if k = 8 then '8' else '9'

/-- Decimal rendering of a positive natural, most significant digit first. -/
def natStrAux : Nat → Str
  | 0 => []
  | n + 1 => natStrAux ((n + 1) / 10) ++ [digitChar ((n + 1) % 10)]
termination_by n => n
decreasing_by exact Nat.div_lt_self (Nat.succ_pos n) (by decide)

/-- Python `str(n)` for a natural number. -/
def natStr (n : Nat) : Str := if n = 0 then ['0'] else natStrAux n

/-- Python `str(i)` for an integer. -/
def intStr (i : Int) : Str :=
  if i < 0 then '-' :: natStr i.natAbs else natStr i.toNat

/-- Rendering of a numeric (Python float) value inside a reason string.  The
exact decimal digits are irrelevant to every property proved here, so a
non-integral rational is rendered as numerator/denominator. -/
def ratStr (q : ℚ) : Str :=
  if q.den = 1 then intStr q.num
  else intStr q.num ++ "/".data ++ natStr q.den

/-- Helper for `dedupeFirst`: keep elements not yet seen, in order. -/
def dedupeFirstAux (seen : List Str) : List Str → List Str
  | [] => []
  | x :: xs =>
    if x ∈ seen then dedupeFirstAux seen xs
    else x :: dedupeFirstAux (x :: seen) xs

/-- `dict.fromkeys` de-duplication: keep the first occurrence of each
element, preserving order. -/
def dedupeFirst (l : List Str) : List Str := dedupeFirstAux [] l

/-- Lexicographic (code-point) comparison, as Python string `<=`. -/
def strLe : Str → Str → Bool
  | [], _ => true
  | _ :: _, [] => false
  | a :: as, b :: bs => if a = b then strLe as bs else decide (a < b)

/-- Insert into a sorted list (helper for `sortStr`). -/
def insertSorted (x : Str) : List Str → List Str
  | [] => [x]
  | y :: ys => if strLe x y then x :: y :: ys else y :: insertSorted x ys

/-- Python `sorted` on a list of strings (insertion sort; the order produced
agrees with any sort by the total lexicographic order). -/
def sortStr (l : List Str) : List Str := l.foldr insertSorted []

/-- Python `needle in haystack` on strings (substring containment). -/
def beginsWith : Str → Str → Bool
  | [], _ => true
  | _ :: _, [] => false
  | a :: as, b :: bs => a = b && beginsWith as bs

/-- Python `needle in haystack` (contiguous substring test). -/
def containsSub (needle : Str) : Str → Bool
  | [] => needle.isEmpty
  | c :: t => beginsWith needle (c :: t) || containsSub needle t

/-! ## Data model (the pydantic schemas of `main.py`) -/

structure SalaryRange where
  currency : Option Str := none
  min : Option ℚ := none
  max : Option ℚ := none
  period : Option Str := some "year".data
deriving DecidableEq

structure Location where
  type : Option Str := none
  cities : Option (List Str) := none
deriving DecidableEq

structure ExperienceReq where
  years_min : Option ℚ := none
  years_pref : Option ℚ := none
deriving DecidableEq

structure Evidence where
  source : Str
  quote : Str
  field : Str
deriving DecidableEq

structure JobSpec where
  role_title : Str
  seniority : Option Str := some "unspecified".data
  employment_type : Option Str := none
  salary_range : Option SalaryRange := none
  location : Option Location := none
  tech_stack : List Str := []
  must_have_hard_skills : List Str := []
  nice_to_have_hard_skills : List Str := []
  soft_skills : List Str := []
  industry : Option Str := none
  domain_knowledge : List Str := []
  culture_requirements : List Str := []
  responsibilities : List Str := []
  education_requirements : List Str := []
  experience_requirements : Option ExperienceReq := none
  keywords : List Str := []
  benefits : List Str := []
  screening_questions : List Str := []
  extracted_evidence : List Evidence := []
deriving DecidableEq

structure CandidateProfile where
  name : Str
  years_experience : ℚ := 0
  current_title : Option Str := none
  skills : List Str := []
  certifications : List Str := []
  education : List Str := []
  roles_history : List Str := []
  locations : Option Location := none
  salary_expectation : Option SalaryRange := none
  industry_experience : List Str := []
deriving DecidableEq

/-- `CultureFit`: the score carries the pydantic constraint `ge=0, le=100`
only through validation (`validateCultureFit`); the field itself is the raw
Python integer. -/
structure CultureFit where
  score : ℤ
  notes : List Str := []
deriving DecidableEq

structure CompanyProfile where
  name : Str
  industry : Option Str := none
  locations : List Str := []
  culture_values : List Str := []
  tech_stack : List Str := []
  salary_benchmarks : Option SalaryRange := none
  culture_fit : Option CultureFit := none
deriving DecidableEq

structure SubScores where
  skills : ℤ
  experience : ℤ
  culture : ℤ
  domain : ℤ
  logistics : ℤ
deriving DecidableEq

structure ScoreCard where
  overall_score : ℤ
  sub_scores : SubScores
  decision : Str
  justification : Str
  reasons : List Str := []
  missing_data : List Str := []
  evidence : List Evidence := []
deriving DecidableEq

/-! ## Normalizer (`_dedupe`, `_normalize_tech`) -/

/-- `_dedupe`: trim, drop empty entries, lower-case, and de-duplicate
keeping first occurrences. -/
def dedupe (xs : List Str) : List Str :=
  dedupeFirst
    ((xs.filter (fun x => !x.isEmpty && !(pyStrip x).isEmpty)).map
      (fun x => pyLower (pyStrip x)))

/-- The inline `normalization_map` of `_normalize_tech`, applied as
`normalization_map.get(tech_lower, tech_lower)`. -/
def mapGet (s : Str) : Str :=
  if s = "postgresql".data then "postgres".data
  else if s = "javascript".data then "js".data
  else if s = "typescript".data then "ts".data
  else if s = "node.js".data then "nodejs".data
  else if s = "react.js".data then "react".data
  else if s = "vue.js".data then "vue".data
  else s

/-- `_normalize_tech`: lower-case and trim each entry, rewrite through the
synonym table, then `_dedupe` the result. -/
def normalize_tech (tech_list : List Str) : List Str :=
  dedupe (tech_list.map (fun tech => mapGet (pyStrip (pyLower tech))))

/-! ## Dimension scorers -/

/-- What one dimension scorer contributes: its score and the entries it
appends to the shared `evidence`, `reasons` and `missing_data` lists. -/
structure ScoreOut where
  score : ℤ
  evidence : List Evidence := []
  reasons : List Str := []
  missing : List Str := []
deriving DecidableEq

/-- Elements of `a` whose normalized form occurs in `b`
(`len(set(a) & set(b))`-style intersection on de-duplicated lists). -/
def interList (a b : List Str) : List Str :=
  a.filter (fun s => decide (s ∈ b))

/-- Elements of `a` not occurring in `b` (`set(a) - set(b)` on
de-duplicated lists). -/
def diffList (a b : List Str) : List Str :=
  a.filter (fun s => decide (s ∉ b))

/-- `_calculate_skills_score`. -/
def calculate_skills_score (job_spec : JobSpec) (candidate : CandidateProfile) : ScoreOut :=
  let candidate_skills := normalize_tech candidate.skills
  let job_tech_stack := normalize_tech job_spec.tech_stack
  let must_have := normalize_tech job_spec.must_have_hard_skills
  let nice_to_have := normalize_tech job_spec.nice_to_have_hard_skills
  let must_have_matches := interList must_have candidate_skills
  let must_have_coverage : ℚ :=
    (must_have_matches.length : ℚ) / (max must_have.length 1 : ℚ)
  let nice_to_have_matches := interList nice_to_have candidate_skills
  let nice_to_have_coverage : ℚ :=
    if nice_to_have ≠ [] then
      (nice_to_have_matches.length : ℚ) / (max nice_to_have.length 1 : ℚ)
    else 0
  let tech_matches := interList job_tech_stack candidate_skills
  let tech_coverage : ℚ :=
    if job_tech_stack ≠ [] then
      (tech_matches.length : ℚ) / (max job_tech_stack.length 1 : ℚ)
    else 0
  let skills_score : ℤ :=
    ⌊must_have_coverage * 70 + nice_to_have_coverage * 15 + tech_coverage * 15⌋
  let ev : List Evidence :=
    if must_have_matches ≠ [] then
      [⟨ "candidate".data,
         "Skills: ".data ++ joinSep ", ".data (sortStr must_have_matches),
         "skills".data ⟩]
    else []
  let rs1 : List Str :=
    if must_have_matches ≠ [] then
      ["matches ".data ++ natStr must_have_matches.length ++ "/".data ++
        natStr must_have.length ++ " must-have skills".data]
    else []
  let missing_skills := diffList must_have candidate_skills
  let rs2 : List Str :=
    if must_have.length > must_have_matches.length then
      ["missing ".data ++ natStr missing_skills.length ++
        " must-have skills: ".data ++ joinSep ", ".data (sortStr missing_skills)]
    else []
  ⟨ skills_score, ev, rs1 ++ rs2, [] ⟩

/-- The inline `seniority_keywords` table of `_calculate_experience_score`. -/
def seniorityKeywords : List (Str × List Str) :=
  [⟨ "junior".data, ["junior".data, "graduate".data, "entry".data] ⟩,
   ⟨ "mid".data, ["mid".data, "intermediate".data, "engineer".data, "developer".data] ⟩,
   ⟨ "senior".data, ["senior".data, "sr".data, "lead".data] ⟩,
   ⟨ "lead".data, ["lead".data, "principal".data, "staff".data, "architect".data] ⟩]

/-- `_calculate_experience_score`. -/
def calculate_experience_score (job_spec : JobSpec) (candidate : CandidateProfile) : ScoreOut :=
  let yearsPart : ℤ × List Evidence × List Str × List Str :=
    match job_spec.experience_requirements with
    | some er =>
      match er.years_min with
      | some years_min =>
        if candidate.years_experience ≥ years_min then
          ⟨ 30,
            [⟨ "candidate".data,
               ratStr candidate.years_experience ++ " years experience".data,
               "experience".data ⟩],
            [ratStr candidate.years_experience ++ " years meets ".data ++
              ratStr years_min ++ "+ requirement".data], [] ⟩
        else
          ⟨ -20, [],
            [ratStr candidate.years_experience ++ " years below ".data ++
              ratStr years_min ++ "+ requirement".data], [] ⟩
      | none => ⟨ 0, [], [], ["experience_requirements.years_min".data] ⟩
    | none => ⟨ 0, [], [], ["experience_requirements.years_min".data] ⟩
  let seniorityPart : ℤ × List Str :=
    match job_spec.seniority with
    | some sen =>
      if sen ≠ [] ∧ sen ≠ "unspecified".data then
        let job_seniority := pyLower sen
        let candidate_title := pyLower (candidate.current_title.getD [])
        match seniorityKeywords.lookup job_seniority with
        | some kws =>
          if kws.any (fun keyword => containsSub keyword candidate_title) then
            ⟨ 20, ["seniority aligned: ".data ++ job_seniority] ⟩
          else
            ⟨ -10, ["seniority mismatch: expects ".data ++ job_seniority] ⟩
        | none => ⟨ 0, [] ⟩
      else ⟨ 0, [] ⟩
    | none => ⟨ 0, [] ⟩
  let score : ℤ := 50 + yearsPart.1 + seniorityPart.1
  ⟨ max 0 (min 100 score), yearsPart.2.1, yearsPart.2.2.1 ++ seniorityPart.2,
    yearsPart.2.2.2 ⟩

/-- `_calculate_culture_score`; returns the contribution together with the
weight used (20 on the explicit `culture_fit` path, 10 on the fallback). -/
def calculate_culture_score (_job_spec : JobSpec) (_candidate : CandidateProfile)
    (company : Option CompanyProfile) : ScoreOut × ℤ :=
  match company with
  | some comp =>
    match comp.culture_fit with
    | some cf =>
      ⟨⟨ cf.score,
         [⟨ "company".data, "Culture fit score: ".data ++ intStr cf.score,
            "culture".data ⟩],
         ["culture fit assessed: ".data ++ intStr cf.score ++ "/100".data],
         [] ⟩, 20 ⟩
    | none =>
      if comp.culture_values ≠ [] then
        ⟨⟨ 60,
           [⟨ "company".data,
              "Values: ".data ++ joinSep ", ".data (comp.culture_values.take 3),
              "culture".data ⟩],
           ["culture estimated from company values".data], [] ⟩, 10 ⟩
      else
        ⟨⟨ 60, [], ["limited culture data available".data],
           ["company_profile.culture_fit".data] ⟩, 10 ⟩
  | none =>
    ⟨⟨ 60, [], ["limited culture data available".data],
       ["company_profile.culture_fit".data] ⟩, 10 ⟩

/-- `_calculate_domain_score`. -/
def calculate_domain_score (job_spec : JobSpec) (candidate : CandidateProfile) : ScoreOut :=
  let industryPart : ℤ × List Evidence × List Str :=
    match job_spec.industry with
    | some ind =>
      if ind ≠ [] ∧ candidate.industry_experience ≠ [] then
        let job_industry := pyLower ind
        let candidate_industries := candidate.industry_experience.map pyLower
        if job_industry ∈ candidate_industries then
          ⟨ 40,
            [⟨ "candidate".data, "Industry: ".data ++ ind, "domain".data ⟩],
            ["industry experience: ".data ++ ind] ⟩
        else if candidate_industries.any
            (fun i => containsSub job_industry i || containsSub i job_industry) then
          ⟨ 20, [], ["related industry experience".data] ⟩
        else ⟨ 0, [], [] ⟩
      else ⟨ 0, [], [] ⟩
    | none => ⟨ 0, [], [] ⟩
  let domainPart : ℤ × List Str :=
    if job_spec.domain_knowledge ≠ [] ∧ candidate.industry_experience ≠ [] then
      if interList (job_spec.domain_knowledge.map pyLower)
          (candidate.industry_experience.map pyLower) ≠ [] then
        ⟨ 10, ["domain knowledge overlap".data] ⟩
      else ⟨ 0, [] ⟩
    else ⟨ 0, [] ⟩
  let score : ℤ := 50 + industryPart.1 + domainPart.1
  ⟨ max 0 (min 100 score), industryPart.2.1, industryPart.2.2 ++ domainPart.2, [] ⟩

/-- `_calculate_logistics_score`. -/
def calculate_logistics_score (job_spec : JobSpec) (candidate : CandidateProfile) : ScoreOut :=
  let locPart : ℤ × List Str :=
    match job_spec.location, candidate.locations with
    | some jloc, some cloc =>
      let job_type := pyLower (jloc.type.getD [])
      let candidate_type := pyLower (cloc.type.getD [])
      if job_type = candidate_type ∨ candidate_type = "remote".data then
        ⟨ 20, ["location type compatible: ".data ++ job_type] ⟩
      else if job_type = "hybrid".data ∧
          (candidate_type = "onsite".data ∨ candidate_type = "remote".data) then
        ⟨ 10, ["location type partially compatible".data] ⟩
      else
        ⟨ -15, ["location type mismatch: needs ".data ++ job_type] ⟩
    | _, _ => ⟨ 0, [] ⟩
  let salPart : ℤ × List Str × List Str :=
    match job_spec.salary_range, candidate.salary_expectation with
    | some jsr, some cse =>
      match jsr.max, cse.min with
      | some jmax, some cmin =>
        if jmax ≥ cmin then ⟨ 10, ["salary expectations aligned".data], [] ⟩
        else ⟨ -20, ["salary expectations misaligned".data], [] ⟩
      | _, _ => ⟨ 0, [], ["complete_salary_information".data] ⟩
    | _, _ => ⟨ 0, [], ["salary_range_or_expectation".data] ⟩
  let score : ℤ := 70 + locPart.1 + salPart.1
  ⟨ max 0 (min 100 score), [], locPart.2 ++ salPart.2.1, salPart.2.2 ⟩

/-! ## Weights, aggregation, decision band -/

structure Weights where
  skills : ℤ
  experience : ℤ
  culture : ℤ
  domain : ℤ
  logistics : ℤ
deriving DecidableEq

/-- Weight table on the explicit-culture-signal path. -/
def fullWeights : Weights := ⟨ 45, 20, 20, 10, 5 ⟩

/-- Weight table when the culture scorer fell back (culture weight 10). -/
def reducedWeights : Weights := ⟨ 45, 20, 10, 15, 10 ⟩

/-- The decision banding at the end of `calculate_match_score`. -/
def decisionBand (overall_score : ℤ) : Str :=
  if overall_score ≥ 75 then "proceed".data
  else if overall_score ≥ 50 then "maybe".data
  else "reject".data

/-! ## Justification composer (`_generate_justification`) -/

/-- First element of the scores dict attaining the maximum
(Python `max(scores, key=scores.get)` iterates in insertion order). -/
def argBest (x : Str × ℤ) (xs : List (Str × ℤ)) : Str × ℤ :=
  xs.foldl (fun acc y => if y.2 > acc.2 then y else acc) x

/-- First element of the scores dict attaining the minimum
(Python `min(scores, key=scores.get)`). -/
def argWorst (x : Str × ℤ) (xs : List (Str × ℤ)) : Str × ℤ :=
  xs.foldl (fun acc y => if y.2 < acc.2 then y else acc) x

/-- The opening score statement of the justification. -/
def scoreStatement (overall_score : ℤ) : Str :=
  if overall_score ≥ 75 then
    "Strong match (".data ++ intStr overall_score ++ "/100). ".data
  else if overall_score ≥ 50 then
    "Moderate match (".data ++ intStr overall_score ++ "/100). ".data
  else
    "Poor match (".data ++ intStr overall_score ++ "/100). ".data

/-- The justification text assembled by `_generate_justification` before the
final word-count truncation. -/
def assembleJustification (overall_score : ℤ)
    (skills_score experience_score culture_score domain_score logistics_score : ℤ)
    (top_reasons missing_data : List Str) : Str :=
  let scoresTail : List (Str × ℤ) :=
    [⟨ "experience".data, experience_score ⟩, ⟨ "culture".data, culture_score ⟩,
     ⟨ "domain".data, domain_score ⟩, ⟨ "logistics".data, logistics_score ⟩]
  let best := argBest ⟨ "skills".data, skills_score ⟩ scoresTail
  let worst := argWorst ⟨ "skills".data, skills_score ⟩ scoresTail
  scoreStatement overall_score ++
  ("Strongest: ".data ++ best.1 ++ " (".data ++ intStr best.2 ++ "/100). ".data) ++
  (if worst.2 < 60 then
    "Weakest: ".data ++ worst.1 ++ " (".data ++ intStr worst.2 ++ "/100). ".data
   else []) ++
  (if top_reasons ≠ [] then
    "Key factors: ".data ++ joinSep "; ".data (top_reasons.take 2) ++ ". ".data
   else []) ++
  (if missing_data ≠ [] ∧ missing_data.length > 1 then
    "Limited by missing data (".data ++ natStr missing_data.length ++ " items).".data
   else [])

/-- `_generate_justification`: assemble the text, then hard-truncate to the
first 97 whitespace-separated words plus an ellipsis if it exceeds 100
words.  The `decision` argument is accepted and unused, as in the source. -/
def generate_justification (overall_score : ℤ) (_decision : Str)
    (skills_score experience_score culture_score domain_score logistics_score : ℤ)
    (top_reasons missing_data : List Str) : Str :=
  let justification :=
    assembleJustification overall_score skills_score experience_score
      culture_score domain_score logistics_score top_reasons missing_data
  let words := splitWS justification
  if words.length > 100 then joinSep [' '] (words.take 97) ++ "...".data
  else justification

/-! ## Score card assembly (`calculate_match_score`, validated path) -/

/-- The body of `calculate_match_score` after schema validation: run the five
dimension scorers, resolve weights, aggregate, band, and assemble the
`ScoreCard`.  `Int.tdiv` is Python `int(x / 100)` (truncation toward zero). -/
def buildScoreCard (job_spec : JobSpec) (candidate : CandidateProfile)
    (company : Option CompanyProfile) : ScoreCard :=
  let sk := calculate_skills_score job_spec candidate
  let ex := calculate_experience_score job_spec candidate
  let cu := (calculate_culture_score job_spec candidate company).1
  let culture_weight := (calculate_culture_score job_spec candidate company).2
  let dm := calculate_domain_score job_spec candidate
  let lg := calculate_logistics_score job_spec candidate
  let evidence := sk.evidence ++ ex.evidence ++ cu.evidence ++ dm.evidence ++ lg.evidence
  let reasons := sk.reasons ++ ex.reasons ++ cu.reasons ++ dm.reasons ++ lg.reasons
  let missing_data := sk.missing ++ ex.missing ++ cu.missing ++ dm.missing ++ lg.missing
  let weights := if culture_weight = 10 then reducedWeights else fullWeights
  let overall_score : ℤ :=
    Int.tdiv
      (sk.score * weights.skills + ex.score * weights.experience +
       cu.score * weights.culture + dm.score * weights.domain +
       lg.score * weights.logistics) 100
  let decision := decisionBand overall_score
  let justification :=
    generate_justification overall_score decision sk.score ex.score cu.score
      dm.score lg.score (reasons.take 3) missing_data
  { overall_score := overall_score,
    sub_scores := ⟨ sk.score, ex.score, cu.score, dm.score, lg.score ⟩,
    decision := decision,
    justification := justification,
    reasons := reasons.take 8,
    missing_data := missing_data,
    evidence := evidence.take 6 }

/-! ## Schema validation and the top-level entry point -/

/-- Raw `job_spec` dictionary: like `JobSpec` but the required `role_title`
may be absent. -/
structure RawJobSpec where
  role_title : Option Str := none
  seniority : Option Str := some "unspecified".data
  employment_type : Option Str := none
  salary_range : Option SalaryRange := none
  location : Option Location := none
  tech_stack : List Str := []
  must_have_hard_skills : List Str := []
  nice_to_have_hard_skills : List Str := []
  soft_skills : List Str := []
  industry : Option Str := none
  domain_knowledge : List Str := []
  culture_requirements : List Str := []
  responsibilities : List Str := []
  education_requirements : List Str := []
  experience_requirements : Option ExperienceReq := none
  keywords : List Str := []
  benefits : List Str := []
  screening_questions : List Str := []
  extracted_evidence : List Evidence := []
deriving DecidableEq

/-- Raw `candidate_profile` dictionary: the required `name` may be absent. -/
structure RawCandidateProfile where
  name : Option Str := none
  years_experience : ℚ := 0
  current_title : Option Str := none
  skills : List Str := []
  certifications : List Str := []
  education : List Str := []
  roles_history : List Str := []
  locations : Option Location := none
  salary_expectation : Option SalaryRange := none
  industry_experience : List Str := []
deriving DecidableEq

/-- Raw `culture_fit` dictionary: the required, range-checked `score` may be
absent or out of range. -/
structure RawCultureFit where
  score : Option ℤ := none
  notes : List Str := []
deriving DecidableEq

/-- Raw company dictionary: the required `name` may be absent. -/
structure RawCompanyProfile where
  name : Option Str := none
  industry : Option Str := none
  locations : List Str := []
  culture_values : List Str := []
  tech_stack : List Str := []
  salary_benchmarks : Option SalaryRange := none
  culture_fit : Option RawCultureFit := none
deriving DecidableEq

/-- The request object passed to `calculate_match_score`; each `none` field
models an absent dictionary key. -/
structure RawInput where
  job_spec : Option RawJobSpec := none
  candidate_profile : Option RawCandidateProfile := none
  company_profile : Option RawCompanyProfile := none
  company_details : Option (List RawCompanyProfile) := none
deriving DecidableEq

/-- `JobSpec.model_validate`: fails with per-field detail when the required
`role_title` is missing. -/
def validateJobSpec (r : RawJobSpec) : Except (List Str) JobSpec :=
  match r.role_title with
  | none => .error ["job_spec.role_title".data]
  | some t =>
    .ok { role_title := t, seniority := r.seniority,
          employment_type := r.employment_type, salary_range := r.salary_range,
          location := r.location, tech_stack := r.tech_stack,
          must_have_hard_skills := r.must_have_hard_skills,
          nice_to_have_hard_skills := r.nice_to_have_hard_skills,
          soft_skills := r.soft_skills, industry := r.industry,
          domain_knowledge := r.domain_knowledge,
          culture_requirements := r.culture_requirements,
          responsibilities := r.responsibilities,
          education_requirements := r.education_requirements,
          experience_requirements := r.experience_requirements,
          keywords := r.keywords, benefits := r.benefits,
          screening_questions := r.screening_questions,
          extracted_evidence := r.extracted_evidence }

/-- `CandidateProfile.model_validate`. -/
def validateCandidate (r : RawCandidateProfile) : Except (List Str) CandidateProfile :=
  match r.name with
  | none => .error ["candidate_profile.name".data]
  | some n =>
    .ok { name := n, years_experience := r.years_experience,
          current_title := r.current_title, skills := r.skills,
          certifications := r.certifications, education := r.education,
          roles_history := r.roles_history, locations := r.locations,
          salary_expectation := r.salary_expectation,
          industry_experience := r.industry_experience }

/-- Validation of a nested `culture_fit` record: `score` is required and
must satisfy `ge=0, le=100`. -/
def validateCultureFit (r : RawCultureFit) : Except (List Str) CultureFit :=
  match r.score with
  | none => .error ["company.culture_fit.score".data]
  | some s =>
    if 0 ≤ s ∧ s ≤ 100 then .ok { score := s, notes := r.notes }
    else .error ["company.culture_fit.score".data]

/-- `CompanyProfile.model_validate` (pydantic collects the errors of all
fields in one `ValidationError`). -/
def validateCompany (r : RawCompanyProfile) : Except (List Str) CompanyProfile :=
  let nameErrs : List Str :=
    match r.name with | none => ["company.name".data] | some _ => []
  let cfRes : Except (List Str) (Option CultureFit) :=
    match r.culture_fit with
    | none => .ok none
    | some rcf => (validateCultureFit rcf).map some
  match cfRes with
  | .error es =>
    .error (nameErrs ++ es)
  | .ok cf =>
    match r.name with
    | none => .error nameErrs
    | some n =>
      .ok { name := n, industry := r.industry, locations := r.locations,
            culture_values := r.culture_values, tech_stack := r.tech_stack,
            salary_benchmarks := r.salary_benchmarks, culture_fit := cf }

/-- Company resolution in `calculate_match_score`: `company_profile` is
preferred; otherwise the first element of a non-empty `company_details`
list; otherwise no company. -/
def resolveCompany (m : RawInput) : Except (List Str) (Option CompanyProfile) :=
  match m.company_profile with
  | some rc => (validateCompany rc).map some
  | none =>
    match m.company_details with
    | some (rc :: _) => (validateCompany rc).map some
    | _ => .ok none

/-- The possible outcomes of `calculate_match_score`: a complete score card,
or one of the two structured error objects returned as data by the
`except` handlers. -/
inductive EngineResult where
  | card (sc : ScoreCard)
  | validationFailed (details : List Str)
  | calculationFailed (message : Str)
deriving DecidableEq

/-- `calculate_match_score`: subscript accesses `match_data["job_spec"]` and
`match_data["candidate_profile"]` raise `KeyError` when absent, which falls
through to the generic handler (`calculation_failed`); `ValidationError`
from schema validation is returned as `validation_failed`. -/
def calculate_match_score (match_data : RawInput) : EngineResult :=
  match match_data.job_spec with
  | none => .calculationFailed "KeyError: job_spec".data
  | some rawJob =>
    match validateJobSpec rawJob with
    | .error e => .validationFailed e
    | .ok job_spec =>
      match match_data.candidate_profile with
      | none => .calculationFailed "KeyError: candidate_profile".data
      | some rawCand =>
        match validateCandidate rawCand with
        | .error e => .validationFailed e
        | .ok candidate =>
          match resolveCompany match_data with
          | .error e => .validationFailed e
          | .ok company => .card (buildScoreCard job_spec candidate company)

/-! ## Outcome predicates -/

/-- The outcome is a complete score card. -/
def EngineResult.isCard : EngineResult → Bool
  | .card _ => true
  | _ => false

/-- The outcome is the `validation_failed` error object. -/
def EngineResult.isValidationFailed : EngineResult → Bool
  | .validationFailed _ => true
  | _ => false

/-- The outcome is the `calculation_failed` error object. -/
def EngineResult.isCalcFailed : EngineResult → Bool
  | .calculationFailed _ => true
  | _ => false

/-! ## The skills formula as the specification words it

These definitions follow the specification text (set cardinalities over the
normalized skill sets, with `round` as claimed), to be compared with the
implementation in `_calculate_skills_score`. -/

/-- `|req ∩ cand| / max(|req|, 1)` over sets. -/
def coverageSpec (req cand : List Str) : ℚ :=
  ((req.toFinset ∩ cand.toFinset).card : ℚ) / (max req.toFinset.card 1 : ℚ)

/-- The claimed skills formula, with rounding as the claim states it. -/
def skillsScoreSpecRound (job_spec : JobSpec) (candidate : CandidateProfile) : ℤ :=
  let cs := normalize_tech candidate.skills
  let mh := normalize_tech job_spec.must_have_hard_skills
  let nh := normalize_tech job_spec.nice_to_have_hard_skills
  let ts := normalize_tech job_spec.tech_stack
  round ((70 : ℚ) * coverageSpec mh cs +
    15 * (if nh.toFinset = ∅ then 0 else coverageSpec nh cs) +
    15 * (if ts.toFinset = ∅ then 0 else coverageSpec ts cs))

/-- The skills formula over normalized sets with `floor` (Python `int()`)
in place of the claimed `round`. -/
def skillsScoreSpecFloor (job_spec : JobSpec) (candidate : CandidateProfile) : ℤ :=
  let cs := normalize_tech candidate.skills
  let mh := normalize_tech job_spec.must_have_hard_skills
  let nh := normalize_tech job_spec.nice_to_have_hard_skills
  let ts := normalize_tech job_spec.tech_stack
  ⌊(70 : ℚ) * coverageSpec mh cs +
    15 * (if nh.toFinset = ∅ then 0 else coverageSpec nh cs) +
    15 * (if ts.toFinset = ∅ then 0 else coverageSpec ts cs)⌋

/-! ## Concrete example records used by witnesses and counterexamples -/

/-- A job requiring three must-have skills (and nothing else). -/
def jobThree : JobSpec :=
  { role_title := "Backend Engineer".data,
    must_have_hard_skills := ["ansible".data, "bash".data, "chef".data] }

/-- A candidate holding two of the three must-have skills of `jobThree`. -/
def candTwo : CandidateProfile :=
  { name := "Alex".data,
    skills := ["ansible".data, "bash".data] }

/-- A minimal valid job specification. -/
def jobMin : JobSpec := { role_title := "Engineer".data }

/-- A minimal valid candidate profile. -/
def candMin : CandidateProfile := { name := "Sam".data }

/-- A company with culture values but no explicit `culture_fit` record. -/
def compValues : CompanyProfile :=
  { name := "Acme".data, culture_values := ["innovation".data] }

/-- A company carrying an explicit `culture_fit` score of 85. -/
def compFit : CompanyProfile :=
  { name := "Acme".data, culture_fit := some { score := 85 } }

/-- A raw request whose `job_spec` lacks the required `role_title` and whose
`candidate_profile` key is absent entirely. -/
def requestNoTitleNoCand : RawInput :=
  { job_spec := some { role_title := none }, candidate_profile := none }

/-- A raw request with a valid `job_spec` and no `candidate_profile` key. -/
def requestNoCand : RawInput :=
  { job_spec := some { role_title := some "Engineer".data },
    candidate_profile := none }

/-- The empty raw request (no keys at all). -/
def requestEmpty : RawInput := {}

/-- A complete valid raw request. -/
def requestFull : RawInput :=
  { job_spec := some { role_title := some "Engineer".data },
    candidate_profile := some { name := some "Sam".data },
    company_profile := some { name := some "Acme".data,
                              culture_fit := some { score := some 85 } } }

/-! ## Further definitions used by the verification -/

/-- The uppercase ASCII letters, the only characters `lowerChar` rewrites. -/
def upperChars : List Char :=
  ['A', 'B', 'C', 'D', 'E', 'F', 'G', 'H', 'I', 'J', 'K', 'L', 'M',
   'N', 'O', 'P', 'Q', 'R', 'S', 'T', 'U', 'V', 'W', 'X', 'Y', 'Z']

/-- A string already trimmed, lower-cased and stable under the synonym
table. -/
def normFixed (z : Str) : Prop :=
  pyStrip z = z ∧ pyLower z = z ∧ mapGet z = z

/-- Append a suffix to the last word of a word list (the shape taken by
`" ".join(words) + "..."` after re-splitting). -/
def appendToLast (suf : Str) : List Str → List Str
  | [] => [suf]
  | [w] => [w ++ suf]
  | w :: ws => w :: appendToLast suf ws

/-- The leading word of the score statement, for each decision band. -/
def scoreLabelWord (overall_score : ℤ) : Str :=
  if overall_score ≥ 75 then "Strong".data
  else if overall_score ≥ 50 then "Moderate".data
  else "Poor".data

/-! ## Lemmas: lower-casing and stripping -/

theorem lowerChar_of_not_mem {c : Char} (h : c ∉ upperChars) : lowerChar c = c := by
  unfold lowerChar
  split
  all_goals first
    | rfl
    | (exfalso; apply h; decide)

theorem lowerChar_idem (c : Char) : lowerChar (lowerChar c) = lowerChar c := by
  by_cases h : c ∈ upperChars
  · fin_cases h <;> decide
  · rw [lowerChar_of_not_mem h, lowerChar_of_not_mem h]

theorem lowerChar_ws (c : Char) : isWS (lowerChar c) = isWS c := by
  by_cases h : c ∈ upperChars
  · fin_cases h <;> decide
  · rw [lowerChar_of_not_mem h]

theorem pyLower_pyLower (s : Str) : pyLower (pyLower s) = pyLower s := by
  unfold pyLower
  rw [List.map_map]
  exact List.map_congr_left (fun c _ => lowerChar_idem c)

theorem dropWhile_head_not {p : Char → Bool} :
    ∀ (l : Str) (c : Char), (l.dropWhile p).head? = some c → p c = false := by
  intro l
  induction l with
  | nil => intro c h; simp [List.dropWhile] at h
  | cons a t ih =>
    intro c h
    by_cases ha : p a
    · exact ih c (by simpa [List.dropWhile, ha] using h)
    · simp [List.dropWhile, ha] at h
      simp [← h, Bool.of_not_eq_true ha]

theorem dropWhile_eq_self_of {p : Char → Bool} {l : Str}
    (h : ∀ c, l.head? = some c → p c = false) : l.dropWhile p = l := by
  cases l with
  | nil => rfl
  | cons a t => simp [List.dropWhile, h a rfl]

theorem dropWhile_dropWhile (p : Char → Bool) (l : Str) :
    (l.dropWhile p).dropWhile p = l.dropWhile p :=
  dropWhile_eq_self_of (dropWhile_head_not l)

theorem dropWhile_pyLower (l : Str) :
    (pyLower l).dropWhile isWS = pyLower (l.dropWhile isWS) := by
  induction l with
  | nil => rfl
  | cons a t ih =>
    by_cases ha : isWS a
    · simp [pyLower, List.dropWhile, lowerChar_ws, ha] at ih ⊢
      exact ih
    · simp [pyLower, List.dropWhile, lowerChar_ws,
        Bool.of_not_eq_true ha]

theorem reverse_pyLower (l : Str) : (pyLower l).reverse = pyLower l.reverse := by
  simp [pyLower]

theorem pyStrip_pyLower (s : Str) : pyStrip (pyLower s) = pyLower (pyStrip s) := by
  unfold pyStrip
  rw [dropWhile_pyLower, reverse_pyLower, dropWhile_pyLower, reverse_pyLower]

theorem pyStrip_isPrefixStep {l t : Str} (hb : l ≠ []) :
    (l ++ t).head? = l.head? := by
  cases l with
  | nil => exact absurd rfl hb
  | cons a l => rfl

theorem pyStrip_head_not (s : Str) :
    ∀ c, (pyStrip s).head? = some c → isWS c = false := by
  intro c hc
  unfold pyStrip at hc
  set a := s.dropWhile isWS with ha
  set r := a.reverse.dropWhile isWS with hr
  have hsuf : r <:+ a.reverse := List.dropWhile_suffix isWS
  have hpre : r.reverse <+: a := by
    rcases hsuf with ⟨u, hu⟩
    exact ⟨(a.reverse.takeWhile isWS).reverse, by
      have : a.reverse = a.reverse.takeWhile isWS ++ r := by
        rw [hr, List.takeWhile_append_dropWhile]
      calc r.reverse ++ (a.reverse.takeWhile isWS).reverse
          = (a.reverse.takeWhile isWS ++ r).reverse := by
            rw [List.reverse_append]
        _ = a.reverse.reverse := by rw [← this]
        _ = a := by rw [List.reverse_reverse]⟩
  rcases hpre with ⟨u, hu⟩
  have hne : r.reverse ≠ [] := by
    intro hnil
    rw [hnil] at hc
    simp at hc
  have : a.head? = some c := by
    rw [← hu, pyStrip_isPrefixStep hne, hc]
  exact dropWhile_head_not s c this

theorem pyStrip_pyStrip (s : Str) : pyStrip (pyStrip s) = pyStrip s := by
  have h1 : (pyStrip s).dropWhile isWS = pyStrip s :=
    dropWhile_eq_self_of (pyStrip_head_not s)
  show (((pyStrip s).dropWhile isWS).reverse.dropWhile isWS).reverse = pyStrip s
  rw [h1]
  unfold pyStrip
  rw [List.reverse_reverse, dropWhile_dropWhile]

theorem pyLower_length (s : Str) : (pyLower s).length = s.length := by
  simp [pyLower]

/-! ## Lemmas: first-occurrence de-duplication -/

theorem mem_of_mem_dedupeFirstAux :
    ∀ (l seen : List Str) (a : Str), a ∈ dedupeFirstAux seen l → a ∈ l := by
  intro l
  induction l with
  | nil => intro seen a h; simp [dedupeFirstAux] at h
  | cons x xs ih =>
    intro seen a h
    by_cases hx : x ∈ seen
    · simp only [dedupeFirstAux, if_pos hx] at h
      exact List.mem_cons_of_mem _ (ih _ _ h)
    · simp only [dedupeFirstAux, if_neg hx, List.mem_cons] at h
      rcases h with h | h
      · exact h ▸ List.mem_cons_self _ _
      · exact List.mem_cons_of_mem _ (ih _ _ h)

theorem not_mem_seen_dedupeFirstAux :
    ∀ (l seen : List Str) (a : Str), a ∈ dedupeFirstAux seen l → a ∉ seen := by
  intro l
  induction l with
  | nil => intro seen a h; simp [dedupeFirstAux] at h
  | cons x xs ih =>
    intro seen a h
    by_cases hx : x ∈ seen
    · simp only [dedupeFirstAux, if_pos hx] at h
      exact ih _ _ h
    · simp only [dedupeFirstAux, if_neg hx, List.mem_cons] at h
      rcases h with h | h
      · exact h ▸ hx
      · intro hseen
        exact ih _ _ h (List.mem_cons_of_mem _ hseen)

theorem nodup_dedupeFirstAux : ∀ (l seen : List Str), (dedupeFirstAux seen l).Nodup := by
  intro l
  induction l with
  | nil => intro seen; simp [dedupeFirstAux]
  | cons x xs ih =>
    intro seen
    by_cases hx : x ∈ seen
    · simp only [dedupeFirstAux, if_pos hx]
      exact ih seen
    · simp only [dedupeFirstAux, if_neg hx]
      refine List.Nodup.cons ?_ (ih (x :: seen))
      intro hmem
      exact not_mem_seen_dedupeFirstAux _ _ _ hmem (List.mem_cons_self _ _)

theorem dedupeFirstAux_eq_self :
    ∀ (l seen : List Str), l.Nodup → (∀ a ∈ l, a ∉ seen) →
      dedupeFirstAux seen l = l := by
  intro l
  induction l with
  | nil => intro seen _ _; rfl
  | cons x xs ih =>
    intro seen hnd hseen
    have hx : x ∉ seen := hseen x (List.mem_cons_self _ _)
    simp only [dedupeFirstAux, if_neg hx]
    congr 1
    refine ih (x :: seen) (List.nodup_cons.mp hnd).2 ?_
    intro a ha
    rw [List.mem_cons]
    rintro (h | h)
    · exact (List.nodup_cons.mp hnd).1 (h ▸ ha)
    · exact hseen a (List.mem_cons_of_mem _ ha) h

theorem mem_of_mem_dedupeFirst (l : List Str) (a : Str) :
    a ∈ dedupeFirst l → a ∈ l :=
  mem_of_mem_dedupeFirstAux l [] a

theorem nodup_dedupeFirst (l : List Str) : (dedupeFirst l).Nodup :=
  nodup_dedupeFirstAux l []

theorem dedupeFirst_eq_self (l : List Str) (h : l.Nodup) : dedupeFirst l = l :=
  dedupeFirstAux_eq_self l [] h (by simp)

/-! ## Lemmas: the technology normalizer -/

theorem mapGet_fix_of_ne {w : Str}
    (h1 : w ≠ "postgresql".data) (h2 : w ≠ "javascript".data)
    (h3 : w ≠ "typescript".data) (h4 : w ≠ "node.js".data)
    (h5 : w ≠ "react.js".data) (h6 : w ≠ "vue.js".data) : mapGet w = w := by
  simp [mapGet, h1, h2, h3, h4, h5, h6]

/-- Each entry of `_normalize_tech` followed by the per-entry pass of
`_dedupe` lands on a fixed point of trim, lower-case and the synonym
table. -/
theorem normalize_elem_fix (x : Str) :
    normFixed (pyLower (pyStrip (mapGet (pyStrip (pyLower x))))) := by
  set w := pyStrip (pyLower x) with hw
  have hsw : pyStrip w = w := by rw [hw, pyStrip_pyStrip]
  have hlw : pyLower w = w := by
    calc pyLower w = pyLower (pyLower (pyStrip x)) := by rw [hw, pyStrip_pyLower]
      _ = pyLower (pyStrip x) := pyLower_pyLower _
      _ = pyStrip (pyLower x) := (pyStrip_pyLower x).symm
      _ = w := hw.symm
  by_cases h1 : w = "postgresql".data
  · rw [h1]; unfold normFixed; exact ⟨by decide, by decide, by decide⟩
  by_cases h2 : w = "javascript".data
  · rw [h2]; unfold normFixed; exact ⟨by decide, by decide, by decide⟩
  by_cases h3 : w = "typescript".data
  · rw [h3]; unfold normFixed; exact ⟨by decide, by decide, by decide⟩
  by_cases h4 : w = "node.js".data
  · rw [h4]; unfold normFixed; exact ⟨by decide, by decide, by decide⟩
  by_cases h5 : w = "react.js".data
  · rw [h5]; unfold normFixed; exact ⟨by decide, by decide, by decide⟩
  by_cases h6 : w = "vue.js".data
  · rw [h6]; unfold normFixed; exact ⟨by decide, by decide, by decide⟩
  have hm : mapGet w = w := mapGet_fix_of_ne h1 h2 h3 h4 h5 h6
  rw [hm, hsw, hlw]
  exact ⟨hsw, hlw, hm⟩

/-- Every output of `_normalize_tech` is trimmed, lower-cased, non-empty and
stable under the synonym table. -/
theorem normalize_tech_mem {xs : List Str} {z : Str}
    (hz : z ∈ normalize_tech xs) : normFixed z ∧ z ≠ [] := by
  unfold normalize_tech dedupe at hz
  have hz' := mem_of_mem_dedupeFirst _ _ hz
  rw [List.mem_map] at hz'
  obtain ⟨y, hy, hzy⟩ := hz'
  rw [List.mem_filter] at hy
  obtain ⟨hyMem, hyP⟩ := hy
  rw [List.mem_map] at hyMem
  obtain ⟨x, _, hyx⟩ := hyMem
  refine ⟨by rw [← hzy, ← hyx]; exact normalize_elem_fix x, ?_⟩
  have hstr : (pyStrip y).isEmpty = false := by
    simp only [Bool.and_eq_true] at hyP
    simpa using hyP.2
  intro hnil
  rw [← hzy] at hnil
  have hlen := congrArg List.length hnil
  rw [pyLower_length] at hlen
  have : pyStrip y = [] := List.length_eq_zero.mp hlen
  rw [this] at hstr
  simp at hstr

/-- `_normalize_tech` always produces a duplicate-free list. -/
theorem normalize_tech_nodup (xs : List Str) : (normalize_tech xs).Nodup := by
  unfold normalize_tech dedupe
  exact nodup_dedupeFirst _

/-- Core of the idempotence argument: a second pass of `_normalize_tech`
leaves its own output unchanged. -/
theorem normalize_tech_idem (xs : List Str) :
    normalize_tech (normalize_tech xs) = normalize_tech xs := by
  have hmem : ∀ z ∈ normalize_tech xs, normFixed z ∧ z ≠ [] :=
    fun z hz => normalize_tech_mem hz
  have hnd : (normalize_tech xs).Nodup := normalize_tech_nodup xs
  have h1 : (normalize_tech xs).map (fun tech => mapGet (pyStrip (pyLower tech)))
      = normalize_tech xs := by
    refine (List.map_congr_left ?_).trans (List.map_id _)
    intro z hz
    obtain ⟨⟨hs, hl, hm⟩, _⟩ := hmem z hz
    show mapGet (pyStrip (pyLower z)) = z
    rw [hl, hs, hm]
  have hd : dedupe (normalize_tech xs) = normalize_tech xs := by
    unfold dedupe
    have h2 : (normalize_tech xs).filter (fun x => !x.isEmpty && !(pyStrip x).isEmpty)
        = normalize_tech xs := by
      refine List.filter_eq_self.mpr ?_
      intro z hz
      obtain ⟨⟨hs, _, _⟩, hne⟩ := hmem z hz
      simp [hs, hne]
    rw [h2]
    have h3 : (normalize_tech xs).map (fun x => pyLower (pyStrip x))
        = normalize_tech xs := by
      refine (List.map_congr_left ?_).trans (List.map_id _)
      intro z hz
      obtain ⟨⟨hs, hl, _⟩, _⟩ := hmem z hz
      show pyLower (pyStrip z) = z
      rw [hs, hl]
    rw [h3]
    exact dedupeFirst_eq_self _ hnd
  calc normalize_tech (normalize_tech xs)
      = dedupe ((normalize_tech xs).map (fun tech => mapGet (pyStrip (pyLower tech)))) := rfl
    _ = dedupe (normalize_tech xs) := by rw [h1]
    _ = normalize_tech xs := hd

/-! ## Lemmas: whitespace splitting -/

theorem splitWS_ws_cons {c : Char} (h : isWS c = true) (l : Str) :
    splitWS (c :: l) = splitWS l := by
  cases l with
  | nil => simp [splitWS, h]
  | cons d cs => simp [splitWS, h]

theorem splitWS_cons_ne_nil {c : Char} (h : isWS c = false) (cs : Str) :
    splitWS (c :: cs) ≠ [] := by
  cases cs with
  | nil => simp [splitWS, h]
  | cons d t =>
    by_cases hd : isWS d
    · simp [splitWS, h, hd]
    · rcases hS : splitWS (d :: t) with _ | ⟨w, ws⟩ <;>
        simp [splitWS, h, hd, hS]

theorem splitWS_append_space : ∀ (l₁ l₂ : Str),
    splitWS (l₁ ++ ' ' :: l₂) = splitWS l₁ ++ splitWS l₂ := by
  intro l₁
  induction l₁ using splitWS.induct with
  | case1 =>
    intro l₂
    rw [List.nil_append, splitWS_ws_cons (by decide)]
    rfl
  | case2 c hc =>
    intro l₂
    show splitWS (c :: ' ' :: l₂) = splitWS [c] ++ splitWS l₂
    rw [splitWS_ws_cons hc, splitWS_ws_cons (by decide), splitWS_ws_cons hc]
    simp [splitWS]
  | case3 c hc =>
    intro l₂
    show splitWS (c :: ' ' :: l₂) = splitWS [c] ++ splitWS l₂
    have h1 : splitWS (c :: ' ' :: l₂) = [c] :: splitWS l₂ := by
      simp [splitWS, hc, show isWS ' ' = true from by decide]
    rw [h1]
    simp [splitWS, hc]
  | case4 c d cs hc ih =>
    intro l₂
    show splitWS (c :: (d :: cs ++ ' ' :: l₂)) = splitWS (c :: d :: cs) ++ splitWS l₂
    rw [splitWS_ws_cons hc, splitWS_ws_cons hc]
    exact ih l₂
  | case5 c d cs hc hd ih =>
    intro l₂
    have hc' : isWS c = false := Bool.of_not_eq_true hc
    show splitWS (c :: d :: (cs ++ ' ' :: l₂)) = splitWS (c :: d :: cs) ++ splitWS l₂
    have lhs : splitWS (c :: d :: (cs ++ ' ' :: l₂)) = [c] :: splitWS (cs ++ ' ' :: l₂) := by
      simp [splitWS, hc', hd]
    have rhs : splitWS (c :: d :: cs) = [c] :: splitWS cs := by
      simp [splitWS, hc', hd]
    rw [lhs, rhs, ih l₂]
    rfl
  | case6 c d cs hc hd hS ih =>
    exact absurd hS (splitWS_cons_ne_nil (Bool.of_not_eq_true hd) cs)
  | case7 c d cs hc hd w ws hS ih =>
    intro l₂
    have hc' : isWS c = false := Bool.of_not_eq_true hc
    have hd' : isWS d = false := Bool.of_not_eq_true hd
    show splitWS (c :: d :: (cs ++ ' ' :: l₂)) = splitWS (c :: d :: cs) ++ splitWS l₂
    have hrec : splitWS (d :: (cs ++ ' ' :: l₂)) = w :: (ws ++ splitWS l₂) := by
      have h := ih l₂
      rw [hS] at h
      exact h
    have lhs : splitWS (c :: d :: (cs ++ ' ' :: l₂))
        = (c :: w) :: (ws ++ splitWS l₂) := by
      simp [splitWS, hc', hd', hrec]
    have rhs : splitWS (c :: d :: cs) = (c :: w) :: ws := by
      simp [splitWS, hc', hd', hS]
    rw [lhs, rhs]
    rfl

theorem splitWS_mem : ∀ (l : Str), ∀ w ∈ splitWS l,
    w ≠ [] ∧ ∀ ch ∈ w, isWS ch = false := by
  intro l
  induction l using splitWS.induct with
  | case1 => intro w hw; simp [splitWS] at hw
  | case2 c hc => intro w hw; simp [splitWS, hc] at hw
  | case3 c hc =>
    intro w hw
    have hw' : w = [c] := by simpa [splitWS, hc] using hw
    subst hw'
    refine ⟨by simp, ?_⟩
    intro ch hch
    have h : ch = c := by simpa using hch
    subst h
    exact Bool.of_not_eq_true hc
  | case4 c d cs hc ih =>
    intro w hw
    rw [splitWS_ws_cons hc] at hw
    exact ih w hw
  | case5 c d cs hc hd ih =>
    intro w hw
    have hc' : isWS c = false := Bool.of_not_eq_true hc
    rw [show splitWS (c :: d :: cs) = [c] :: splitWS cs by simp [splitWS, hc', hd],
      List.mem_cons] at hw
    rcases hw with hw | hw
    · subst hw
      refine ⟨by simp, ?_⟩
      intro ch hch
      have h : ch = c := by simpa using hch
      subst h
      exact hc'
    · exact ih w hw
  | case6 c d cs hc hd hS ih =>
    exact absurd hS (splitWS_cons_ne_nil (Bool.of_not_eq_true hd) cs)
  | case7 c d cs hc hd w0 ws hS ih =>
    intro w hw
    have hc' : isWS c = false := Bool.of_not_eq_true hc
    have hd' : isWS d = false := Bool.of_not_eq_true hd
    rw [show splitWS (c :: d :: cs) = (c :: w0) :: ws by simp [splitWS, hc', hd', hS],
      List.mem_cons] at hw
    rcases hw with hw | hw
    · subst hw
      have h0 := ih w0 (by rw [hS]; exact List.mem_cons_self _ _)
      refine ⟨by simp, ?_⟩
      intro ch hch
      rcases List.mem_cons.mp hch with h | h
      · subst h; exact hc'
      · exact h0.2 ch h
    · exact ih w (by rw [hS]; exact List.mem_cons_of_mem _ hw)

theorem splitWS_single : ∀ (w : Str), w ≠ [] → (∀ ch ∈ w, isWS ch = false) →
    splitWS w = [w] := by
  intro w
  induction w with
  | nil => intro h _; exact absurd rfl h
  | cons c rest ih =>
    intro _ hch
    have hc : isWS c = false := hch c (List.mem_cons_self _ _)
    cases rest with
    | nil => simp [splitWS, hc]
    | cons d cs =>
      have hd : isWS d = false := hch d (by simp)
      have hrest : splitWS (d :: cs) = [d :: cs] := by
        refine ih (by simp) ?_
        intro ch h
        exact hch ch (List.mem_cons_of_mem _ h)
      simp [splitWS, hc, hd, hrest]

theorem splitWS_joinSep : ∀ (ws : List Str), ws ≠ [] →
    (∀ w ∈ ws, w ≠ [] ∧ ∀ ch ∈ w, isWS ch = false) →
    splitWS (joinSep [' '] ws) = ws := by
  intro ws
  induction ws with
  | nil => intro h _; exact absurd rfl h
  | cons w rest ih =>
    intro _ hprops
    cases rest with
    | nil =>
      have h := hprops w (List.mem_cons_self _ _)
      show splitWS w = [w]
      exact splitWS_single w h.1 h.2
    | cons w2 rest2 =>
      have hjoin : joinSep [' '] (w :: w2 :: rest2)
          = w ++ ' ' :: joinSep [' '] (w2 :: rest2) := by
        show w ++ [' '] ++ joinSep [' '] (w2 :: rest2) = _
        rw [List.append_assoc]
        rfl
      rw [hjoin, splitWS_append_space]
      have h := hprops w (List.mem_cons_self _ _)
      rw [splitWS_single w h.1 h.2,
        ih (by simp) (fun x hx => hprops x (List.mem_cons_of_mem _ hx))]
      rfl

/-! ## Lemmas: appendToLast and digit strings -/

theorem appendToLast_ne_nil (suf : Str) (l : List Str) : appendToLast suf l ≠ [] := by
  cases l with
  | nil => simp [appendToLast]
  | cons w ws => cases ws <;> simp [appendToLast]

theorem joinSep_appendToLast (suf : Str) : ∀ (l : List Str),
    joinSep [' '] l ++ suf = joinSep [' '] (appendToLast suf l) := by
  intro l
  induction l with
  | nil => simp [joinSep, appendToLast]
  | cons w ws ih =>
    cases ws with
    | nil => simp [joinSep, appendToLast]
    | cons w2 rest =>
      show (w ++ [' '] ++ joinSep [' '] (w2 :: rest)) ++ suf
          = joinSep [' '] (w :: appendToLast suf (w2 :: rest))
      rcases hA : appendToLast suf (w2 :: rest) with _ | ⟨a, as⟩
      · exact absurd hA (appendToLast_ne_nil _ _)
      · show _ = w ++ [' '] ++ joinSep [' '] (a :: as)
        rw [← hA, ← ih]
        simp [List.append_assoc]

theorem appendToLast_length (suf : Str) : ∀ (l : List Str), l ≠ [] →
    (appendToLast suf l).length = l.length := by
  intro l
  induction l with
  | nil => intro h; exact absurd rfl h
  | cons w ws ih =>
    intro _
    cases ws with
    | nil => simp [appendToLast]
    | cons w2 rest =>
      show (w :: appendToLast suf (w2 :: rest)).length = _
      simp only [List.length_cons]
      rw [ih (by simp)]
      simp

theorem appendToLast_take (suf : Str) : ∀ (l : List Str) (n : ℕ), n < l.length →
    (appendToLast suf l).take n = l.take n := by
  intro l
  induction l with
  | nil => intro n h; simp at h
  | cons w ws ih =>
    intro n h
    cases ws with
    | nil =>
      have : n = 0 := by simpa using Nat.lt_one_iff.mp (by simpa using h)
      subst this
      simp
    | cons w2 rest =>
      show (w :: appendToLast suf (w2 :: rest)).take n = _
      cases n with
      | zero => simp
      | succ m =>
        simp only [List.take_succ_cons]
        rw [ih m (by simpa using h)]

theorem appendToLast_mem (suf : Str) (hsuf : suf ≠ [] ∧ ∀ ch ∈ suf, isWS ch = false) :
    ∀ (l : List Str), (∀ w ∈ l, w ≠ [] ∧ ∀ ch ∈ w, isWS ch = false) →
    ∀ w ∈ appendToLast suf l, w ≠ [] ∧ ∀ ch ∈ w, isWS ch = false := by
  intro l
  induction l with
  | nil =>
    intro _ w hw
    have : w = suf := by simpa [appendToLast] using hw
    subst this
    exact hsuf
  | cons x ws ih =>
    intro hl w hw
    cases ws with
    | nil =>
      have hx := hl x (List.mem_cons_self _ _)
      have : w = x ++ suf := by simpa [appendToLast] using hw
      subst this
      refine ⟨by simp [hx.1], ?_⟩
      intro ch hch
      rcases List.mem_append.mp hch with h | h
      · exact hx.2 ch h
      · exact hsuf.2 ch h
    | cons w2 rest =>
      rw [show appendToLast suf (x :: w2 :: rest) = x :: appendToLast suf (w2 :: rest)
        from rfl, List.mem_cons] at hw
      rcases hw with hw | hw
      · exact hw ▸ hl x (List.mem_cons_self _ _)
      · exact ih (fun v hv => hl v (List.mem_cons_of_mem _ hv)) w hw

theorem digitChar_not_ws (k : ℕ) : isWS (digitChar k) = false := by
  unfold digitChar
  split_ifs <;> decide

theorem natStrAux_chars : ∀ (n : ℕ), ∀ ch ∈ natStrAux n, isWS ch = false := by
  intro n
  induction n using natStrAux.induct with
  | case1 => intro ch h; simp [natStrAux] at h
  | case2 n ih =>
    intro ch h
    rw [show natStrAux (n + 1) = natStrAux ((n + 1) / 10) ++ [digitChar ((n + 1) % 10)]
      from by rw [natStrAux]] at h
    rcases List.mem_append.mp h with h | h
    · exact ih ch h
    · have : ch = digitChar ((n + 1) % 10) := by simpa using h
      exact this ▸ digitChar_not_ws _
  
theorem natStrAux_ne_nil (n : ℕ) (h : n ≠ 0) : natStrAux n ≠ [] := by
  cases n with
  | zero => exact absurd rfl h
  | succ m =>
    rw [show natStrAux (m + 1) = natStrAux ((m + 1) / 10) ++ [digitChar ((m + 1) % 10)]
      from by rw [natStrAux]]
    simp

theorem natStr_chars (n : ℕ) : ∀ ch ∈ natStr n, isWS ch = false := by
  unfold natStr
  split_ifs with h
  · intro ch hch
    have : ch = '0' := by simpa using hch
    subst this
    decide
  · exact natStrAux_chars n

theorem natStr_ne_nil (n : ℕ) : natStr n ≠ [] := by
  unfold natStr
  split_ifs with h
  · simp
  · exact natStrAux_ne_nil n h

theorem intStr_chars (i : ℤ) : ∀ ch ∈ intStr i, isWS ch = false := by
  unfold intStr
  split_ifs with h
  · intro ch hch
    rcases List.mem_cons.mp hch with h2 | h2
    · subst h2; decide
    · exact natStr_chars _ ch h2
  · exact natStr_chars _

theorem intStr_ne_nil (i : ℤ) : intStr i ≠ [] := by
  unfold intStr
  split_ifs with h
  · simp
  · exact natStr_ne_nil _

/-! ## Lemmas: the score statement and justification text -/

theorem scoreStatement_decomp (n : ℤ) (r : Str) :
    scoreStatement n ++ r
      = scoreLabelWord n ++ ' ' :: ("match".data ++ ' ' ::
          (("(".data ++ intStr n ++ "/100).".data) ++ ' ' :: r)) := by
  unfold scoreStatement scoreLabelWord
  split_ifs <;> (simp only [List.append_assoc, List.cons_append]; rfl)

theorem scoreLabelWord_props (n : ℤ) :
    scoreLabelWord n ≠ [] ∧ ∀ ch ∈ scoreLabelWord n, isWS ch = false := by
  unfold scoreLabelWord
  split_ifs <;> exact ⟨by decide, by decide⟩

theorem word3_props (n : ℤ) :
    ("(".data ++ intStr n ++ "/100).".data) ≠ [] ∧
      ∀ ch ∈ ("(".data ++ intStr n ++ "/100).".data), isWS ch = false := by
  refine ⟨by simp, ?_⟩
  intro ch hch
  simp only [List.mem_append] at hch
  rcases hch with (h | h) | h
  · have : ∀ c ∈ "(".data, isWS c = false := by decide
    exact this ch h
  · exact intStr_chars n ch h
  · have : ∀ c ∈ "/100).".data, isWS c = false := by decide
    exact this ch h

theorem splitWS_scoreStatement (n : ℤ) (r : Str) :
    splitWS (scoreStatement n ++ r)
      = scoreLabelWord n :: "match".data ::
          ("(".data ++ intStr n ++ "/100).".data) :: splitWS r := by
  rw [scoreStatement_decomp, splitWS_append_space,
    splitWS_single _ (scoreLabelWord_props n).1 (scoreLabelWord_props n).2,
    splitWS_append_space,
    splitWS_single "match".data (by decide) (by decide),
    splitWS_append_space,
    splitWS_single _ (word3_props n).1 (word3_props n).2]
  rfl

/-- Splitting the truncated text `" ".join(words[:97]) + "..."` yields
exactly the first 97 words, the last with the ellipsis attached. -/
theorem splitWS_truncated (t : Str) (h : 100 < (splitWS t).length) :
    splitWS (joinSep [' '] ((splitWS t).take 97) ++ "...".data)
      = appendToLast "...".data ((splitWS t).take 97) := by
  have hprops : ∀ w ∈ (splitWS t).take 97, w ≠ [] ∧ ∀ ch ∈ w, isWS ch = false :=
    fun w hw => splitWS_mem t w (List.mem_of_mem_take hw)
  have hne : (splitWS t).take 97 ≠ [] := by
    have hlen : ((splitWS t).take 97).length = 97 := by
      rw [List.length_take]
      omega
    intro hnil
    rw [hnil] at hlen
    simp at hlen
  rw [joinSep_appendToLast]
  refine splitWS_joinSep _ (appendToLast_ne_nil _ _) ?_
  exact appendToLast_mem "...".data ⟨by decide, by decide⟩ _ hprops

/-- The justification never exceeds 100 whitespace-separated words. -/
theorem generate_justification_le_100 (overall_score : ℤ) (decision : Str)
    (s e c d l : ℤ) (top_reasons missing_data : List Str) :
    (splitWS (generate_justification overall_score decision s e c d l
      top_reasons missing_data)).length ≤ 100 := by
  unfold generate_justification
  set t := assembleJustification overall_score s e c d l top_reasons missing_data
  by_cases h : (splitWS t).length > 100
  · rw [if_pos h, splitWS_truncated t h,
      appendToLast_length _ _ (by
        intro hnil
        have hlen : ((splitWS t).take 97).length = 97 := by
          rw [List.length_take]; omega
        rw [hnil] at hlen
        simp at hlen)]
    rw [List.length_take]
    omega
  · rw [if_neg h]
    omega

/-- The three words of the leading score statement survive into the final
justification, truncated or not. -/
theorem generate_justification_take3 (overall_score : ℤ) (decision : Str)
    (s e c d l : ℤ) (top_reasons missing_data : List Str) :
    (splitWS (generate_justification overall_score decision s e c d l
        top_reasons missing_data)).take 3
      = splitWS (scoreStatement overall_score) := by
  have hrest : assembleJustification overall_score s e c d l top_reasons missing_data
      = scoreStatement overall_score ++
        (("Strongest: ".data ++
            (argBest ⟨ "skills".data, s ⟩
              [⟨ "experience".data, e ⟩, ⟨ "culture".data, c ⟩,
               ⟨ "domain".data, d ⟩, ⟨ "logistics".data, l ⟩]).1 ++
            " (".data ++
            intStr (argBest ⟨ "skills".data, s ⟩
              [⟨ "experience".data, e ⟩, ⟨ "culture".data, c ⟩,
               ⟨ "domain".data, d ⟩, ⟨ "logistics".data, l ⟩]).2 ++
            "/100). ".data) ++
          ((if (argWorst ⟨ "skills".data, s ⟩
                [⟨ "experience".data, e ⟩, ⟨ "culture".data, c ⟩,
                 ⟨ "domain".data, d ⟩, ⟨ "logistics".data, l ⟩]).2 < 60 then
              "Weakest: ".data ++
                (argWorst ⟨ "skills".data, s ⟩
                  [⟨ "experience".data, e ⟩, ⟨ "culture".data, c ⟩,
                   ⟨ "domain".data, d ⟩, ⟨ "logistics".data, l ⟩]).1 ++
                " (".data ++
                intStr (argWorst ⟨ "skills".data, s ⟩
                  [⟨ "experience".data, e ⟩, ⟨ "culture".data, c ⟩,
                   ⟨ "domain".data, d ⟩, ⟨ "logistics".data, l ⟩]).2 ++
                "/100). ".data
            else []) ++
           ((if top_reasons ≠ [] then
               "Key factors: ".data ++ joinSep "; ".data (top_reasons.take 2) ++
                 ". ".data
             else []) ++
            (if missing_data ≠ [] ∧ missing_data.length > 1 then
               "Limited by missing data (".data ++ natStr missing_data.length ++
                 " items).".data
             else [])))) := by
    unfold assembleJustification
    simp only [List.append_assoc]
  set rest := ("Strongest: ".data ++
        (argBest ⟨ "skills".data, s ⟩
          [⟨ "experience".data, e ⟩, ⟨ "culture".data, c ⟩,
           ⟨ "domain".data, d ⟩, ⟨ "logistics".data, l ⟩]).1 ++
        " (".data ++
        intStr (argBest ⟨ "skills".data, s ⟩
          [⟨ "experience".data, e ⟩, ⟨ "culture".data, c ⟩,
           ⟨ "domain".data, d ⟩, ⟨ "logistics".data, l ⟩]).2 ++
        "/100). ".data) ++
      ((if (argWorst ⟨ "skills".data, s ⟩
            [⟨ "experience".data, e ⟩, ⟨ "culture".data, c ⟩,
             ⟨ "domain".data, d ⟩, ⟨ "logistics".data, l ⟩]).2 < 60 then
          "Weakest: ".data ++
            (argWorst ⟨ "skills".data, s ⟩
              [⟨ "experience".data, e ⟩, ⟨ "culture".data, c ⟩,
               ⟨ "domain".data, d ⟩, ⟨ "logistics".data, l ⟩]).1 ++
            " (".data ++
            intStr (argWorst ⟨ "skills".data, s ⟩
              [⟨ "experience".data, e ⟩, ⟨ "culture".data, c ⟩,
               ⟨ "domain".data, d ⟩, ⟨ "logistics".data, l ⟩]).2 ++
            "/100). ".data
        else []) ++
       ((if top_reasons ≠ [] then
           "Key factors: ".data ++ joinSep "; ".data (top_reasons.take 2) ++
             ". ".data
         else []) ++
        (if missing_data ≠ [] ∧ missing_data.length > 1 then
           "Limited by missing data (".data ++ natStr missing_data.length ++
             " items).".data
         else []))) with hrestdef
  have hstmt : splitWS (scoreStatement overall_score)
      = [scoreLabelWord overall_score, "match".data,
         "(".data ++ intStr overall_score ++ "/100).".data] := by
    have h := splitWS_scoreStatement overall_score []
    rw [List.append_nil] at h
    rw [h]
    rfl
  have hsplit : splitWS (assembleJustification overall_score s e c d l
        top_reasons missing_data)
      = scoreLabelWord overall_score :: "match".data ::
        ("(".data ++ intStr overall_score ++ "/100).".data) :: splitWS rest := by
    rw [hrest, splitWS_scoreStatement]
  unfold generate_justification
  by_cases h : (splitWS (assembleJustification overall_score s e c d l
      top_reasons missing_data)).length > 100
  · rw [if_pos h, splitWS_truncated _ h,
      appendToLast_take _ _ 3 (by rw [List.length_take]; omega),
      List.take_take]
    have h3 : min 3 97 = 3 := by norm_num
    rw [h3, hsplit, hstmt]
    rfl
  · rw [if_neg h, hsplit, hstmt]
    rfl

/-! ## Lemmas: decision bands and score-statement labels -/

theorem scoreLabelWord_decision (n : ℤ) :
    (decisionBand n = "proceed".data ↔ scoreLabelWord n = "Strong".data)
    ∧ (decisionBand n = "maybe".data ↔ scoreLabelWord n = "Moderate".data)
    ∧ (decisionBand n = "reject".data ↔ scoreLabelWord n = "Poor".data) := by
  unfold decisionBand scoreLabelWord
  split_ifs <;> refine ⟨ ?_, ?_, ?_ ⟩ <;> decide

/-! ## Lemmas: shape of the shared missing-data list -/

theorem buildScoreCard_missing (job_spec : JobSpec) (candidate : CandidateProfile)
    (company : Option CompanyProfile) :
    (buildScoreCard job_spec candidate company).missing_data
      = (calculate_experience_score job_spec candidate).missing ++
        (calculate_culture_score job_spec candidate company).1.missing ++
        (calculate_logistics_score job_spec candidate).missing := by
  have h1 : (calculate_skills_score job_spec candidate).missing = [] := rfl
  have h2 : (calculate_domain_score job_spec candidate).missing = [] := rfl
  show (calculate_skills_score job_spec candidate).missing ++
      (calculate_experience_score job_spec candidate).missing ++
      (calculate_culture_score job_spec candidate company).1.missing ++
      (calculate_domain_score job_spec candidate).missing ++
      (calculate_logistics_score job_spec candidate).missing = _
  rw [h1, h2]
  simp

theorem experience_missing_cases (job_spec : JobSpec) (candidate : CandidateProfile) :
    (calculate_experience_score job_spec candidate).missing = [] ∨
    (calculate_experience_score job_spec candidate).missing
      = ["experience_requirements.years_min".data] := by
  cases hER : job_spec.experience_requirements with
  | none => right; simp [calculate_experience_score, hER]
  | some er =>
    cases hYM : er.years_min with
    | none => right; simp [calculate_experience_score, hER, hYM]
    | some ym =>
      by_cases hy : candidate.years_experience ≥ ym
      · left; simp [calculate_experience_score, hER, hYM, hy]
      · left; simp [calculate_experience_score, hER, hYM, hy]

theorem logistics_missing_cases (job_spec : JobSpec) (candidate : CandidateProfile) :
    (calculate_logistics_score job_spec candidate).missing = [] ∨
    (calculate_logistics_score job_spec candidate).missing
      = ["complete_salary_information".data] ∨
    (calculate_logistics_score job_spec candidate).missing
      = ["salary_range_or_expectation".data] := by
  cases hsr : job_spec.salary_range with
  | none => right; right; simp [calculate_logistics_score, hsr]
  | some jsr =>
    cases hse : candidate.salary_expectation with
    | none => right; right; simp [calculate_logistics_score, hsr, hse]
    | some cse =>
      cases hmax : jsr.max with
      | none => right; left; simp [calculate_logistics_score, hsr, hse, hmax]
      | some jmax =>
        cases hmin : cse.min with
        | none => right; left; simp [calculate_logistics_score, hsr, hse, hmax, hmin]
        | some cmin =>
          by_cases hj : jmax ≥ cmin
          · left; simp [calculate_logistics_score, hsr, hse, hmax, hmin, hj]
          · left; simp [calculate_logistics_score, hsr, hse, hmax, hmin, hj]

theorem culture_missing_cases (job_spec : JobSpec) (candidate : CandidateProfile)
    (company : Option CompanyProfile) :
    (calculate_culture_score job_spec candidate company).1.missing
      = (if (company.bind CompanyProfile.culture_fit).isSome then ([] : List Str)
         else if (company.map CompanyProfile.culture_values).getD [] ≠ [] then []
         else ["company_profile.culture_fit".data]) := by
  cases company with
  | none => rfl
  | some comp =>
    cases hcf : comp.culture_fit with
    | none =>
      by_cases hv : comp.culture_values ≠ [] <;>
        simp [calculate_culture_score, hcf, hv, Option.bind]
    | some cf => simp [calculate_culture_score, hcf, Option.bind]

/-! ## Lemmas: culture weight selection -/

theorem culture_weight_cases (job_spec : JobSpec) (candidate : CandidateProfile)
    (company : Option CompanyProfile) :
    (calculate_culture_score job_spec candidate company).2
      = if (company.bind CompanyProfile.culture_fit).isSome then 20 else 10 := by
  cases company with
  | none => rfl
  | some comp =>
    cases hcf : comp.culture_fit with
    | none =>
      by_cases hv : comp.culture_values ≠ [] <;>
        simp [calculate_culture_score, hcf, hv, Option.bind]
    | some cf => simp [calculate_culture_score, hcf, Option.bind]

/-! ## Lemmas: skills coverage as set cardinalities -/

theorem interList_card (a b : List Str) (h : a.Nodup) :
    (interList a b).length = (a.toFinset ∩ b.toFinset).card := by
  unfold interList
  have h1 : (a.filter (fun s => decide (s ∈ b))).Nodup := h.filter _
  rw [← List.toFinset_card_of_nodup h1]
  congr 1
  ext x
  simp [List.mem_filter]

theorem coverage_eq (a b : List Str) (h : a.Nodup) :
    ((interList a b).length : ℚ) / (max a.length 1 : ℚ) = coverageSpec a b := by
  unfold coverageSpec
  rw [interList_card a b h, List.toFinset_card_of_nodup h]

/-! ## Lemmas: skills floor formula and subscore bounds -/

theorem skills_floor_eq (job_spec : JobSpec) (candidate : CandidateProfile) :
    (calculate_skills_score job_spec candidate).score
      = skillsScoreSpecFloor job_spec candidate := by
  have hmh := normalize_tech_nodup job_spec.must_have_hard_skills
  have hnh := normalize_tech_nodup job_spec.nice_to_have_hard_skills
  have hts := normalize_tech_nodup job_spec.tech_stack
  refine congrArg Int.floor ?_
  rw [coverage_eq _ _ hmh, coverage_eq _ _ hnh, coverage_eq _ _ hts]
  by_cases hn : normalize_tech job_spec.nice_to_have_hard_skills = [] <;>
    by_cases ht : normalize_tech job_spec.tech_stack = [] <;>
      simp [hn, ht, List.toFinset_eq_empty_iff] <;> ring

theorem coverage_bounds (a b : List Str) :
    0 ≤ ((interList a b).length : ℚ) / (max a.length 1 : ℚ)
    ∧ ((interList a b).length : ℚ) / (max a.length 1 : ℚ) ≤ 1 := by
  have hpos : (0 : ℚ) < (max a.length 1 : ℚ) :=
    lt_of_lt_of_le one_pos (le_max_right _ _)
  constructor
  · exact div_nonneg (by positivity) hpos.le
  · rw [div_le_one hpos]
    calc ((interList a b).length : ℚ) ≤ (a.length : ℚ) := by
          exact_mod_cast List.length_filter_le _ _
      _ ≤ max (a.length : ℚ) 1 := le_max_left _ _

theorem ite_coverage_bounds (cond : Prop) [Decidable cond] (a b : List Str) :
    0 ≤ (if cond then ((interList a b).length : ℚ) / (max a.length 1 : ℚ) else 0)
    ∧ (if cond then ((interList a b).length : ℚ) / (max a.length 1 : ℚ) else 0) ≤ 1 := by
  split_ifs
  · exact coverage_bounds a b
  · norm_num

theorem floor_skills_bounds (x y z : ℚ) (hx : 0 ≤ x ∧ x ≤ 1) (hy : 0 ≤ y ∧ y ≤ 1)
    (hz : 0 ≤ z ∧ z ≤ 1) :
    0 ≤ ⌊x * 70 + y * 15 + z * 15⌋ ∧ ⌊x * 70 + y * 15 + z * 15⌋ ≤ 100 := by
  have h70 : x * 70 ≤ 70 := by nlinarith [hx.2]
  have h15 : y * 15 ≤ 15 := by nlinarith [hy.2]
  have h15t : z * 15 ≤ 15 := by nlinarith [hz.2]
  constructor
  · rw [Int.le_floor]
    push_cast
    nlinarith [hx.1, hy.1, hz.1]
  · have hle : x * 70 + y * 15 + z * 15 ≤ ((100 : ℤ) : ℚ) := by push_cast; linarith
    have := Int.floor_le_floor hle
    rwa [Int.floor_intCast] at this

theorem skills_score_bounds (job_spec : JobSpec) (candidate : CandidateProfile) :
    0 ≤ (calculate_skills_score job_spec candidate).score
    ∧ (calculate_skills_score job_spec candidate).score ≤ 100 :=
  floor_skills_bounds _ _ _ (coverage_bounds _ _)
    (ite_coverage_bounds _ _ _) (ite_coverage_bounds _ _ _)

theorem clamp_bounds (s : ℤ) : 0 ≤ max 0 (min 100 s) ∧ max 0 (min 100 s) ≤ 100 :=
  ⟨ le_max_left 0 _,
    max_le_iff.mpr ⟨ by norm_num, min_le_iff.mpr (Or.inl le_rfl) ⟩ ⟩

theorem experience_score_bounds (job_spec : JobSpec) (candidate : CandidateProfile) :
    0 ≤ (calculate_experience_score job_spec candidate).score
    ∧ (calculate_experience_score job_spec candidate).score ≤ 100 :=
  clamp_bounds _

theorem domain_score_bounds (job_spec : JobSpec) (candidate : CandidateProfile) :
    0 ≤ (calculate_domain_score job_spec candidate).score
    ∧ (calculate_domain_score job_spec candidate).score ≤ 100 :=
  clamp_bounds _

theorem logistics_score_bounds (job_spec : JobSpec) (candidate : CandidateProfile) :
    0 ≤ (calculate_logistics_score job_spec candidate).score
    ∧ (calculate_logistics_score job_spec candidate).score ≤ 100 :=
  clamp_bounds _

theorem culture_score_value (job_spec : JobSpec) (candidate : CandidateProfile)
    (company : Option CompanyProfile) :
    (calculate_culture_score job_spec candidate company).1.score
      = ((company.bind CompanyProfile.culture_fit).map CultureFit.score).getD 60 := by
  cases company with
  | none => rfl
  | some comp =>
    cases hcf : comp.culture_fit with
    | none =>
      by_cases hv : comp.culture_values ≠ [] <;>
        simp [calculate_culture_score, hcf, hv, Option.bind]
    | some cf => simp [calculate_culture_score, hcf, Option.bind]

theorem culture_score_bounds (job_spec : JobSpec) (candidate : CandidateProfile)
    (company : Option CompanyProfile)
    (h : ∀ cf, company.bind CompanyProfile.culture_fit = some cf →
      0 ≤ cf.score ∧ cf.score ≤ 100) :
    0 ≤ (calculate_culture_score job_spec candidate company).1.score
    ∧ (calculate_culture_score job_spec candidate company).1.score ≤ 100 := by
  rw [culture_score_value]
  cases hcf : company.bind CompanyProfile.culture_fit with
  | none => norm_num
  | some cf =>
    have := h cf hcf
    simpa using this

/-! ## Lemmas: score card projections and aggregation -/

theorem buildScoreCard_skills (job_spec : JobSpec) (candidate : CandidateProfile)
    (company : Option CompanyProfile) :
    (buildScoreCard job_spec candidate company).sub_scores.skills
      = (calculate_skills_score job_spec candidate).score := rfl

theorem buildScoreCard_experience (job_spec : JobSpec) (candidate : CandidateProfile)
    (company : Option CompanyProfile) :
    (buildScoreCard job_spec candidate company).sub_scores.experience
      = (calculate_experience_score job_spec candidate).score := rfl

theorem buildScoreCard_culture (job_spec : JobSpec) (candidate : CandidateProfile)
    (company : Option CompanyProfile) :
    (buildScoreCard job_spec candidate company).sub_scores.culture
      = (calculate_culture_score job_spec candidate company).1.score := rfl

theorem buildScoreCard_domain (job_spec : JobSpec) (candidate : CandidateProfile)
    (company : Option CompanyProfile) :
    (buildScoreCard job_spec candidate company).sub_scores.domain
      = (calculate_domain_score job_spec candidate).score := rfl

theorem buildScoreCard_logistics (job_spec : JobSpec) (candidate : CandidateProfile)
    (company : Option CompanyProfile) :
    (buildScoreCard job_spec candidate company).sub_scores.logistics
      = (calculate_logistics_score job_spec candidate).score := rfl

theorem buildScoreCard_overall (job_spec : JobSpec) (candidate : CandidateProfile)
    (company : Option CompanyProfile) :
    (buildScoreCard job_spec candidate company).overall_score
      = Int.tdiv
          ((calculate_skills_score job_spec candidate).score *
            (if (calculate_culture_score job_spec candidate company).2 = 10 then
              reducedWeights else fullWeights).skills +
           (calculate_experience_score job_spec candidate).score *
            (if (calculate_culture_score job_spec candidate company).2 = 10 then
              reducedWeights else fullWeights).experience +
           (calculate_culture_score job_spec candidate company).1.score *
            (if (calculate_culture_score job_spec candidate company).2 = 10 then
              reducedWeights else fullWeights).culture +
           (calculate_domain_score job_spec candidate).score *
            (if (calculate_culture_score job_spec candidate company).2 = 10 then
              reducedWeights else fullWeights).domain +
           (calculate_logistics_score job_spec candidate).score *
            (if (calculate_culture_score job_spec candidate company).2 = 10 then
              reducedWeights else fullWeights).logistics) 100 := rfl

theorem buildScoreCard_decision (job_spec : JobSpec) (candidate : CandidateProfile)
    (company : Option CompanyProfile) :
    (buildScoreCard job_spec candidate company).decision
      = decisionBand (buildScoreCard job_spec candidate company).overall_score := rfl

theorem weight_table (job_spec : JobSpec) (candidate : CandidateProfile)
    (company : Option CompanyProfile) :
    (if (calculate_culture_score job_spec candidate company).2 = 10 then
      reducedWeights else fullWeights)
      = (if (company.bind CompanyProfile.culture_fit).isSome then
          fullWeights else reducedWeights) := by
  rw [culture_weight_cases]
  cases h : (company.bind CompanyProfile.culture_fit).isSome <;> simp

theorem tdiv_overall_bounds (a : ℤ) (h0 : 0 ≤ a) (h1 : a ≤ 10000) :
    0 ≤ Int.tdiv a 100 ∧ Int.tdiv a 100 ≤ 100 := by
  constructor
  · exact Int.tdiv_nonneg h0 (by norm_num)
  · rw [Int.tdiv_eq_ediv h0 (by norm_num)]
    calc a / 100 ≤ 10000 / 100 := Int.ediv_le_ediv (by norm_num) h1
      _ = 100 := by norm_num

theorem scoreStatement_words (n : ℤ) :
    splitWS (scoreStatement n)
      = [scoreLabelWord n, "match".data,
         "(".data ++ intStr n ++ "/100).".data] := by
  have h := splitWS_scoreStatement n []
  rw [List.append_nil] at h
  rw [h]
  rfl

/-! ## Claim theorems -/

/-- C1 (counterexample): with three must-have skills of which the candidate
holds two (coverage 2/3), the implementation returns `int(140/3) = 46`, while
the claimed `round` gives 47 — the claim is false as stated. -/
theorem c1_claim_counterexample :
    (calculate_skills_score jobThree candTwo).score = 46
    ∧ skillsScoreSpecRound jobThree candTwo = 47
    ∧ (calculate_skills_score jobThree candTwo).score
        ≠ skillsScoreSpecRound jobThree candTwo := by
  have hfloor : ⌊(140 : ℚ)/3⌋ = 46 := by
    rw [Int.floor_eq_iff]
    norm_num
  have hround : round ((140 : ℚ)/3) = 47 := by
    rw [round_eq, Int.floor_eq_iff]
    norm_num
  have himpl : (calculate_skills_score jobThree candTwo).score = ⌊(140 : ℚ)/3⌋ := by
    refine congrArg Int.floor ?_
    have l1 : (interList (normalize_tech jobThree.must_have_hard_skills)
        (normalize_tech candTwo.skills)).length = 2 := by decide
    have l2 : (normalize_tech jobThree.must_have_hard_skills).length = 3 := by decide
    have l3 : normalize_tech jobThree.nice_to_have_hard_skills = [] := by decide
    have l4 : normalize_tech jobThree.tech_stack = [] := by decide
    rw [l1, l2]
    simp only [l3, l4, ne_eq, not_true_eq_false, if_false, ite_false]
    push_cast
    rw [max_eq_left (by norm_num : (1 : ℚ) ≤ 3)]
    norm_num
  have hspec : skillsScoreSpecRound jobThree candTwo = round ((140 : ℚ)/3) := by
    refine congrArg round ?_
    have c1 : ((normalize_tech jobThree.must_have_hard_skills).toFinset ∩
        (normalize_tech candTwo.skills).toFinset).card = 2 := by decide
    have c2 : (normalize_tech jobThree.must_have_hard_skills).toFinset.card = 3 := by
      decide
    have c3 : (normalize_tech jobThree.nice_to_have_hard_skills).toFinset
        = (∅ : Finset Str) := by decide
    have c4 : (normalize_tech jobThree.tech_stack).toFinset = (∅ : Finset Str) := by
      decide
    unfold coverageSpec
    rw [c1, c2]
    simp only [c3, c4, ite_true, if_true]
    push_cast
    rw [max_eq_left (by norm_num : (1 : ℚ) ≤ 3)]
    norm_num
  rw [himpl, hspec, hfloor, hround]
  norm_num

/-- C1 (amended): the skills subscore equals
`floor(70*must_have_coverage + 15*nice_to_have_coverage + 15*tech_coverage)`
— floor (Python `int()` truncation), not round — with the coverages taken
over the normalized skill sets exactly as the claim describes them. -/
theorem c1_skills_subscore (job_spec : JobSpec) (candidate : CandidateProfile)
    (company : Option CompanyProfile) :
    (buildScoreCard job_spec candidate company).sub_scores.skills
      = skillsScoreSpecFloor job_spec candidate
    ∧ (calculate_skills_score job_spec candidate).score
      = skillsScoreSpecFloor job_spec candidate := by
  refine ⟨ ?_, skills_floor_eq _ _ ⟩
  rw [buildScoreCard_skills]
  exact skills_floor_eq _ _

/-- C3: the decision is a pure function of the overall score (the score card
always carries `decisionBand overall_score`), with the bands
`≥ 75 → proceed`, `50 ≤ _ < 75 → maybe`, `< 50 → reject`. -/
theorem c3_decision_bands (job_spec : JobSpec) (candidate : CandidateProfile)
    (company : Option CompanyProfile) (n : ℤ) :
    (buildScoreCard job_spec candidate company).decision
      = decisionBand (buildScoreCard job_spec candidate company).overall_score
    ∧ (75 ≤ n → decisionBand n = "proceed".data)
    ∧ (50 ≤ n ∧ n < 75 → decisionBand n = "maybe".data)
    ∧ (n < 50 → decisionBand n = "reject".data) := by
  refine ⟨ buildScoreCard_decision _ _ _, ?_, ?_, ?_ ⟩
  · intro h
    unfold decisionBand
    rw [if_pos (by omega)]
  · intro h
    unfold decisionBand
    rw [if_neg (by omega), if_pos (by omega)]
  · intro h
    unfold decisionBand
    rw [if_neg (by omega), if_neg (by omega)]

/-- C3 witness: the band properties applied at 80, 60 and 49, and the
decision/score consistency on a concrete score card. -/
theorem c3_decision_bands_witness :
    (buildScoreCard jobMin candMin none).decision
      = decisionBand (buildScoreCard jobMin candMin none).overall_score
    ∧ decisionBand 80 = "proceed".data
    ∧ decisionBand 60 = "maybe".data
    ∧ decisionBand 49 = "reject".data :=
  ⟨ (c3_decision_bands jobMin candMin none 0).1,
    (c3_decision_bands jobMin candMin none 80).2.1 (by norm_num),
    (c3_decision_bands jobMin candMin none 60).2.2.1 (by norm_num),
    (c3_decision_bands jobMin candMin none 49).2.2.2 (by norm_num) ⟩

/-- C4: the overall score is the floor of the weight-table-combined
subscores, the full table (45/20/20/10/5) is selected exactly when the
explicit `culture_fit` signal is present, the reduced table (45/20/10/15/10)
otherwise, and both tables sum to 100. -/
theorem c4_weighted_overall (job_spec : JobSpec) (candidate : CandidateProfile)
    (company : Option CompanyProfile) :
    ((buildScoreCard job_spec candidate company).overall_score
      = Int.tdiv
          ((buildScoreCard job_spec candidate company).sub_scores.skills *
            (if (company.bind CompanyProfile.culture_fit).isSome then
              fullWeights else reducedWeights).skills +
           (buildScoreCard job_spec candidate company).sub_scores.experience *
            (if (company.bind CompanyProfile.culture_fit).isSome then
              fullWeights else reducedWeights).experience +
           (buildScoreCard job_spec candidate company).sub_scores.culture *
            (if (company.bind CompanyProfile.culture_fit).isSome then
              fullWeights else reducedWeights).culture +
           (buildScoreCard job_spec candidate company).sub_scores.domain *
            (if (company.bind CompanyProfile.culture_fit).isSome then
              fullWeights else reducedWeights).domain +
           (buildScoreCard job_spec candidate company).sub_scores.logistics *
            (if (company.bind CompanyProfile.culture_fit).isSome then
              fullWeights else reducedWeights).logistics) 100)
    ∧ fullWeights.skills + fullWeights.experience + fullWeights.culture +
        fullWeights.domain + fullWeights.logistics = 100
    ∧ reducedWeights.skills + reducedWeights.experience + reducedWeights.culture +
        reducedWeights.domain + reducedWeights.logistics = 100 := by
  refine ⟨ ?_, by decide, by decide ⟩
  rw [buildScoreCard_overall, weight_table, buildScoreCard_skills,
    buildScoreCard_experience, buildScoreCard_culture, buildScoreCard_domain,
    buildScoreCard_logistics]

/-- C8: the engine is deterministic — identical inputs produce identical
outputs (the embedding is a pure function; the Python reads no state, clock
or randomness). -/
theorem c8_deterministic (m₁ m₂ : RawInput) (h : m₁ = m₂) :
    calculate_match_score m₁ = calculate_match_score m₂ := by rw [h]

/-- C8 witness: two invocations on a concrete complete request agree. -/
theorem c8_deterministic_witness :
    calculate_match_score requestFull = calculate_match_score requestFull :=
  c8_deterministic requestFull requestFull rfl

/-- C9 (counterexample): a request lacking the `candidate_profile` key whose
`job_spec` is present but invalid (missing `role_title`) is answered with
`validation_failed`, not the claimed `calculation_failed` — job-spec
validation runs before the candidate key is touched. -/
theorem c9_claim_counterexample :
    calculate_match_score requestNoTitleNoCand
      = .validationFailed ["job_spec.role_title".data]
    ∧ (calculate_match_score requestNoTitleNoCand).isCalcFailed = false := by
  exact ⟨ rfl, rfl ⟩

/-- C9 (amended): a request lacking `job_spec` always falls to the generic
handler (`calculation_failed`, from `KeyError`); a request lacking
`candidate_profile` does so provided `job_spec` is present and validates
(otherwise `validation_failed` is returned first). -/
theorem c9_missing_keys (m : RawInput) :
    (m.job_spec = none →
      calculate_match_score m = .calculationFailed "KeyError: job_spec".data)
    ∧ (∀ rj job, m.job_spec = some rj → validateJobSpec rj = .ok job →
        m.candidate_profile = none →
        calculate_match_score m
          = .calculationFailed "KeyError: candidate_profile".data) := by
  constructor
  · intro h
    simp [calculate_match_score, h]
  · intro rj job hrj hok hcand
    simp [calculate_match_score, hrj, hok, hcand]

/-- C9 witness: the empty request and a request with a valid job but no
candidate key. -/
theorem c9_missing_keys_witness :
    calculate_match_score requestEmpty
      = .calculationFailed "KeyError: job_spec".data
    ∧ calculate_match_score requestNoCand
      = .calculationFailed "KeyError: candidate_profile".data :=
  ⟨ (c9_missing_keys requestEmpty).1 rfl,
    (c9_missing_keys requestNoCand).2 { role_title := some "Engineer".data }
      { role_title := "Engineer".data } rfl rfl rfl ⟩

/-- C10: the technology normalizer is idempotent, and no synonym target is
itself a synonym key (each target is a fixed point of the table). -/
theorem c10_normalize_idem (xs : List Str) :
    normalize_tech (normalize_tech xs) = normalize_tech xs
    ∧ mapGet "postgres".data = "postgres".data
    ∧ mapGet "js".data = "js".data
    ∧ mapGet "ts".data = "ts".data
    ∧ mapGet "nodejs".data = "nodejs".data
    ∧ mapGet "react".data = "react".data
    ∧ mapGet "vue".data = "vue".data :=
  ⟨ normalize_tech_idem xs, by decide, by decide, by decide, by decide,
    by decide, by decide ⟩

/-- C7: every outcome of `calculate_match_score` is data — a complete score
card or one of the two error objects — and a `job_spec` present but missing
its required `role_title` yields the `validation_failed` object with
field-level detail. -/
theorem c7_error_as_data (m : RawInput) :
    ((calculate_match_score m).isCard = true
      ∨ (calculate_match_score m).isValidationFailed = true
      ∨ (calculate_match_score m).isCalcFailed = true)
    ∧ (∀ rj, m.job_spec = some rj → rj.role_title = none →
        calculate_match_score m
          = .validationFailed ["job_spec.role_title".data]) := by
  constructor
  · rcases hm : calculate_match_score m with sc | d | msg <;>
      simp [EngineResult.isCard, EngineResult.isValidationFailed,
        EngineResult.isCalcFailed]
  · intro rj hrj hrt
    simp [calculate_match_score, hrj, validateJobSpec, hrt]

/-- C7 witness: the trichotomy at the empty request and the validation error
for a job spec without `role_title`. -/
theorem c7_error_as_data_witness :
    ((calculate_match_score requestEmpty).isCard = true
      ∨ (calculate_match_score requestEmpty).isValidationFailed = true
      ∨ (calculate_match_score requestEmpty).isCalcFailed = true)
    ∧ calculate_match_score requestNoTitleNoCand
        = .validationFailed ["job_spec.role_title".data] :=
  ⟨ (c7_error_as_data requestEmpty).1,
    (c7_error_as_data requestNoTitleNoCand).2 { role_title := none } rfl rfl ⟩

/-- C2 (counterexample): a company with culture values but no explicit
`culture_fit` takes the fallback (60 at weight 10), yet
`company_profile.culture_fit` is NOT recorded in missing_data — the claim
that it is always recorded on the fallback path is false. -/
theorem c2_claim_counterexample :
    (calculate_culture_score jobMin candMin (some compValues)).1.score = 60
    ∧ (calculate_culture_score jobMin candMin (some compValues)).2 = 10
    ∧ "company_profile.culture_fit".data ∉
        (buildScoreCard jobMin candMin (some compValues)).missing_data := by
  refine ⟨ by decide, by decide, by decide ⟩

/-- C2 (amended): with an explicit `culture_fit` the score passes through
verbatim at weight 20; otherwise the subscore is 60 at weight 10, and
`company_profile.culture_fit` is recorded in missing_data exactly when no
culture values are available (when `culture_values` are present they are
noted as evidence instead and no missing-data entry is made). -/
theorem c2_culture_fallback (job_spec : JobSpec) (candidate : CandidateProfile)
    (company : Option CompanyProfile) :
    (∀ cf, company.bind CompanyProfile.culture_fit = some cf →
      (calculate_culture_score job_spec candidate company).1.score = cf.score
      ∧ (calculate_culture_score job_spec candidate company).2 = 20
      ∧ (buildScoreCard job_spec candidate company).sub_scores.culture = cf.score)
    ∧ (company.bind CompanyProfile.culture_fit = none →
      (calculate_culture_score job_spec candidate company).1.score = 60
      ∧ (calculate_culture_score job_spec candidate company).2 = 10
      ∧ (buildScoreCard job_spec candidate company).sub_scores.culture = 60
      ∧ ("company_profile.culture_fit".data
            ∈ (buildScoreCard job_spec candidate company).missing_data
          ↔ (company.map CompanyProfile.culture_values).getD [] = [])) := by
  constructor
  · intro cf hcf
    have h1 : (calculate_culture_score job_spec candidate company).1.score
        = cf.score := by
      rw [culture_score_value, hcf]
      rfl
    have h2 : (calculate_culture_score job_spec candidate company).2 = 20 := by
      rw [culture_weight_cases, hcf]
      rfl
    exact ⟨ h1, h2, by rw [buildScoreCard_culture]; exact h1 ⟩
  · intro hnone
    have h1 : (calculate_culture_score job_spec candidate company).1.score = 60 := by
      rw [culture_score_value, hnone]
      rfl
    have h2 : (calculate_culture_score job_spec candidate company).2 = 10 := by
      rw [culture_weight_cases, hnone]
      rfl
    refine ⟨ h1, h2, by rw [buildScoreCard_culture]; exact h1, ?_ ⟩
    rw [buildScoreCard_missing, culture_missing_cases, hnone]
    rcases experience_missing_cases job_spec candidate with he | he <;>
      rcases logistics_missing_cases job_spec candidate with hl | hl | hl <;>
        rw [he, hl] <;>
        by_cases hv : (company.map CompanyProfile.culture_values).getD [] = [] <;>
          simp [hv]

/-- C2 witness: the pass-through on an explicit score of 85, and the
fallback on a company with culture values only. -/
theorem c2_culture_fallback_witness :
    ((calculate_culture_score jobMin candMin (some compFit)).1.score
        = ({ score := 85 } : CultureFit).score
      ∧ (calculate_culture_score jobMin candMin (some compFit)).2 = 20
      ∧ (buildScoreCard jobMin candMin (some compFit)).sub_scores.culture
          = ({ score := 85 } : CultureFit).score)
    ∧ ((calculate_culture_score jobMin candMin (some compValues)).1.score = 60
      ∧ (calculate_culture_score jobMin candMin (some compValues)).2 = 10
      ∧ (buildScoreCard jobMin candMin (some compValues)).sub_scores.culture = 60
      ∧ ("company_profile.culture_fit".data
            ∈ (buildScoreCard jobMin candMin (some compValues)).missing_data
          ↔ ((some compValues).map CompanyProfile.culture_values).getD [] = [])) :=
  ⟨ (c2_culture_fallback jobMin candMin (some compFit)).1 { score := 85 } rfl,
    (c2_culture_fallback jobMin candMin (some compValues)).2 rfl ⟩

/-- C5: every subscore of the returned score card and the overall score lie
in [0, 100] — including the unclamped skills subscore and the culture
pass-through, whose bound comes from the validated `culture_fit` range. -/
theorem c5_subscore_bounds (job_spec : JobSpec) (candidate : CandidateProfile)
    (company : Option CompanyProfile)
    (h : ∀ cf, company.bind CompanyProfile.culture_fit = some cf →
      0 ≤ cf.score ∧ cf.score ≤ 100) :
    (0 ≤ (buildScoreCard job_spec candidate company).sub_scores.skills
      ∧ (buildScoreCard job_spec candidate company).sub_scores.skills ≤ 100)
    ∧ (0 ≤ (buildScoreCard job_spec candidate company).sub_scores.experience
      ∧ (buildScoreCard job_spec candidate company).sub_scores.experience ≤ 100)
    ∧ (0 ≤ (buildScoreCard job_spec candidate company).sub_scores.culture
      ∧ (buildScoreCard job_spec candidate company).sub_scores.culture ≤ 100)
    ∧ (0 ≤ (buildScoreCard job_spec candidate company).sub_scores.domain
      ∧ (buildScoreCard job_spec candidate company).sub_scores.domain ≤ 100)
    ∧ (0 ≤ (buildScoreCard job_spec candidate company).sub_scores.logistics
      ∧ (buildScoreCard job_spec candidate company).sub_scores.logistics ≤ 100)
    ∧ (0 ≤ (buildScoreCard job_spec candidate company).overall_score
      ∧ (buildScoreCard job_spec candidate company).overall_score ≤ 100) := by
  obtain ⟨hs0, hs1⟩ := skills_score_bounds job_spec candidate
  obtain ⟨he0, he1⟩ := experience_score_bounds job_spec candidate
  obtain ⟨hc0, hc1⟩ := culture_score_bounds job_spec candidate company h
  obtain ⟨hd0, hd1⟩ := domain_score_bounds job_spec candidate
  obtain ⟨hl0, hl1⟩ := logistics_score_bounds job_spec candidate
  refine ⟨ ?_, ?_, ?_, ?_, ?_, ?_ ⟩
  · rw [buildScoreCard_skills]; exact ⟨hs0, hs1⟩
  · rw [buildScoreCard_experience]; exact ⟨he0, he1⟩
  · rw [buildScoreCard_culture]; exact ⟨hc0, hc1⟩
  · rw [buildScoreCard_domain]; exact ⟨hd0, hd1⟩
  · rw [buildScoreCard_logistics]; exact ⟨hl0, hl1⟩
  · rw [buildScoreCard_overall]
    by_cases hcw : (calculate_culture_score job_spec candidate company).2 = 10
    · rw [if_pos hcw]
      simp only [reducedWeights]
      exact tdiv_overall_bounds _ (by omega) (by omega)
    · rw [if_neg hcw]
      simp only [fullWeights]
      exact tdiv_overall_bounds _ (by omega) (by omega)

/-- C5 witness: the bounds at a concrete validated input with an explicit
culture score of 85. -/
theorem c5_subscore_bounds_witness :
    (0 ≤ (buildScoreCard jobMin candMin (some compFit)).sub_scores.skills
      ∧ (buildScoreCard jobMin candMin (some compFit)).sub_scores.skills ≤ 100)
    ∧ (0 ≤ (buildScoreCard jobMin candMin (some compFit)).sub_scores.experience
      ∧ (buildScoreCard jobMin candMin (some compFit)).sub_scores.experience ≤ 100)
    ∧ (0 ≤ (buildScoreCard jobMin candMin (some compFit)).sub_scores.culture
      ∧ (buildScoreCard jobMin candMin (some compFit)).sub_scores.culture ≤ 100)
    ∧ (0 ≤ (buildScoreCard jobMin candMin (some compFit)).sub_scores.domain
      ∧ (buildScoreCard jobMin candMin (some compFit)).sub_scores.domain ≤ 100)
    ∧ (0 ≤ (buildScoreCard jobMin candMin (some compFit)).sub_scores.logistics
      ∧ (buildScoreCard jobMin candMin (some compFit)).sub_scores.logistics ≤ 100)
    ∧ (0 ≤ (buildScoreCard jobMin candMin (some compFit)).overall_score
      ∧ (buildScoreCard jobMin candMin (some compFit)).overall_score ≤ 100) :=
  c5_subscore_bounds jobMin candMin (some compFit)
    (fun cf hcf => by
      injection hcf with h2
      rw [← h2]
      decide)

/-- C6: the justification never exceeds 100 whitespace-separated words; when
the assembled text exceeds 100 words it becomes the first 97 words plus an
ellipsis; the three words of the leading score statement always survive; and
the statement label is banded at the same 75/50 thresholds as the
decision. -/
theorem c6_justification_bound (overall_score : ℤ) (decision : Str)
    (skills_score experience_score culture_score domain_score logistics_score : ℤ)
    (top_reasons missing_data : List Str) :
    (splitWS (generate_justification overall_score decision skills_score
        experience_score culture_score domain_score logistics_score
        top_reasons missing_data)).length ≤ 100
    ∧ generate_justification overall_score decision skills_score
        experience_score culture_score domain_score logistics_score
        top_reasons missing_data
      = (if (splitWS (assembleJustification overall_score skills_score
            experience_score culture_score domain_score logistics_score
            top_reasons missing_data)).length > 100 then
          joinSep [' '] ((splitWS (assembleJustification overall_score
            skills_score experience_score culture_score domain_score
            logistics_score top_reasons missing_data)).take 97) ++ "...".data
         else assembleJustification overall_score skills_score experience_score
            culture_score domain_score logistics_score top_reasons missing_data)
    ∧ (splitWS (generate_justification overall_score decision skills_score
        experience_score culture_score domain_score logistics_score
        top_reasons missing_data)).take 3
      = splitWS (scoreStatement overall_score)
    ∧ splitWS (scoreStatement overall_score)
      = [scoreLabelWord overall_score, "match".data,
         "(".data ++ intStr overall_score ++ "/100).".data]
    ∧ ((decisionBand overall_score = "proceed".data
          ↔ scoreLabelWord overall_score = "Strong".data)
       ∧ (decisionBand overall_score = "maybe".data
          ↔ scoreLabelWord overall_score = "Moderate".data)
       ∧ (decisionBand overall_score = "reject".data
          ↔ scoreLabelWord overall_score = "Poor".data)) :=
  ⟨ generate_justification_le_100 overall_score decision skills_score
      experience_score culture_score domain_score logistics_score
      top_reasons missing_data,
    rfl,
    generate_justification_take3 overall_score decision skills_score
      experience_score culture_score domain_score logistics_score
      top_reasons missing_data,
    scoreStatement_words overall_score,
    scoreLabelWord_decision overall_score ⟩
